import Mathlib

/-!
Verification of the label/field value model and the batch-operation engine of
the `legal_drive_labels_manager` repository.

The development shallowly embeds the relevant Python source:

* `labels/fields.py` — `FieldType`, `FieldValue.format_value`,
  `FieldValue.parse_value`, `FieldValue.format_search_query`;
* `files/operations.py` — `process_batch_operation` (multi-pass retry engine);
* `files/manager.py` — `FileManager.batch_update_files` (grouping executor)
  and the module-level `_create_field_modification`.

Dynamic Python values are modelled by `PyVal`; Python exceptions by
`Except PyErr`; remote collaborators (label catalog, Drive service) are
universally quantified function parameters; observable side effects
(progress callbacks, sleeps, remote calls) are recorded in explicit event
traces.
-/

namespace Ldlm

/-- Dynamic Python-like values as they flow through `fields.py`: strings,
integers, dicts and lists.  Claims only exercise stringification of scalar
values; the rendering of containers (which Python would `repr`) is modelled
by a fixed marker, as no analyzed code path stringifies a container. -/
inductive PyVal where
  | str (s : String)
  | int (n : Int)
  | dict (entries : List (String × PyVal))
  | list (elems : List PyVal)

/-- Python `str()` on the modelled values. -/
def pyStr : PyVal → String
  | .str s => s
  | .int n => toString n
  | .dict _ => "<dict>"
  | .list _ => "<list>"

/-- Value of a nonempty all-digit character list, base 10. -/
def decDigits? (cs : List Char) : Option Nat :=
  if cs ≠ [] ∧ cs.all Char.isDigit then
    Option.some (cs.foldl (fun a c => a * 10 + (c.toNat - 48)) 0)
  else Option.none

/-- Python `int()` on the modelled scalar values: identity on ints, base-10
parse (with optional sign, surrounding whitespace stripped) on strings,
`Option.none` when Python would raise `ValueError`.  Containers are handled
separately by the callers, because Python raises `TypeError` (not
`ValueError`) for them. -/
def pyInt : PyVal → Option Int
  | .int n => Option.some n
  | .str s =>
    match s.trim.toList with
    | '-' :: cs => (decDigits? cs).map (fun n => -(n : Int))
    | '+' :: cs => (decDigits? cs).map (fun n => (n : Int))
    | cs => (decDigits? cs).map (fun n => (n : Int))
  | _ => Option.none

/-- Python exceptions raised by the embedded code. -/
inductive PyErr where
  | valueError (msg : String)
  | typeError (msg : String)
deriving Repr, DecidableEq

/-- Enumeration of supported field types (`FieldType` in `labels/fields.py`). -/
inductive FieldType where
  | TEXT
  | SELECTION
  | INTEGER
  | DATE
  | USER
  | LONG_TEXT
deriving Repr, DecidableEq

/-- `FieldType.from_string`: string to enum, `ValueError` otherwise. -/
def FieldType.from_string (value : String) : Except PyErr FieldType :=
  if value = "TEXT" then .ok .TEXT
  else if value = "SELECTION" then .ok .SELECTION
  else if value = "INTEGER" then .ok .INTEGER
  else if value = "DATE" then .ok .DATE
  else if value = "USER" then .ok .USER
  else if value = "LONG_TEXT" then .ok .LONG_TEXT
  else .error (.valueError ("Invalid field type: " ++ value))

/-- `FieldValue.format_value` (`labels/fields.py` lines 70-120): format a raw
value for an API request according to the field type.  The result, on
success, is the wire dictionary.  The source checks `len(value) < 8` for
`DATE` (its comment says `Minimum YYYY-MM-DD`); a non-parsing `INTEGER`
raises `ValueError`; `int()` of a container would raise an uncaught
`TypeError` because the source only catches `ValueError`. -/
def format_value (field_type : FieldType) (value : PyVal) : Except PyErr PyVal :=
  match field_type with
  | .TEXT | .LONG_TEXT => .ok (.dict [("textValue", .str (pyStr value))])
  | .INTEGER =>
    match value with
    | .dict _ => .error (.typeError "int() argument must not be a dict")
    | .list _ => .error (.typeError "int() argument must not be a list")
    | v =>
      match pyInt v with
      | Option.some n => .ok (.dict [("integerValue", .int n)])
      | Option.none => .error (.valueError ("Invalid integer value: " ++ pyStr v))
  | .DATE =>
    let s := match value with
      | .str s => s
      | v => pyStr v
    if s.length < 8 then
      .error (.valueError ("Invalid date format: " ++ s ++ ". Use ISO format (YYYY-MM-DD)."))
    else
      .ok (.dict [("dateValue", .str s)])
  | .USER =>
    match value with
    | .dict es =>
      if (es.lookup "emailAddress").isSome then .ok (.dict [("userValue", .dict es)])
      else .ok (.dict [("userValue", .str (pyStr (.dict es)))])
    | v => .ok (.dict [("userValue", .str (pyStr v))])
  | .SELECTION =>
    match value with
    | .dict es =>
      if (es.lookup "valueId").isSome then .ok (.dict [("selectionValue", .dict es)])
      else .ok (.dict [("selectionValue", .dict [("valueId", .str (pyStr (.dict es)))])])
    | v => .ok (.dict [("selectionValue", .dict [("valueId", .str (pyStr v))])])

/-- `FieldValue.parse_value` (`labels/fields.py` lines 122-160): best-effort
decoding of an API response dictionary, with type-appropriate defaults for
missing keys. -/
def parse_value (field_type : FieldType) (value_dict : List (String × PyVal)) : PyVal :=
  match field_type with
  | .TEXT | .LONG_TEXT => (value_dict.lookup "textValue").getD (.str "")
  | .INTEGER => (value_dict.lookup "integerValue").getD (.int 0)
  | .DATE => (value_dict.lookup "dateValue").getD (.str "")
  | .USER =>
    let user_value := (value_dict.lookup "userValue").getD (.dict [])
    match user_value with
    | .dict es =>
      match es.lookup "emailAddress" with
      | Option.some e => e
      | Option.none => .dict es
    | v => v
  | .SELECTION =>
    let selection_value := (value_dict.lookup "selectionValue").getD (.dict [])
    match selection_value with
    | .dict es => (es.lookup "displayName").getD ((es.lookup "valueId").getD (.str ""))
    | v => v

/-- Operator table of `FieldValue.format_search_query` (normalized operator
to query operator). -/
def valid_operators : List (String × String) :=
  [("is null", "IS NULL"), ("is not null", "IS NOT NULL"),
   ("=", "="), ("!=", "!="), ("<", "<"), (">", ">"), ("<=", "<="), (">=", ">="),
   ("contains", "CONTAINS"), ("starts with", "STARTS WITH"),
   ("in", "IN"), ("not in", "NOT IN")]

/-- Python `str.lower()` over the ASCII domain of search operators
(character-wise lowercasing). -/
def strLower (s : String) : String := String.mk (s.data.map Char.toLower)

/-- Single-quote a string, as the source does for string search values. -/
def quoteStr (s : String) : String := "\x27" ++ s ++ "\x27"

/-- Render one search value: strings quoted, everything else `str()`-ed. -/
def searchVal (v : PyVal) : String :=
  match v with
  | .str s => quoteStr s
  | v => pyStr v

/-- `FieldValue.format_search_query` (`labels/fields.py` lines 162-236):
build a query fragment; `ValueError` for an unknown (case-insensitively
matched) operator or a missing value for a value-requiring operator. -/
def format_search_query (label_id field_id operator : String)
    (value : Option PyVal) : Except PyErr String :=
  let norm_op := strLower operator
  match valid_operators.lookup norm_op with
  | Option.none => .error (.valueError ("Invalid operator: " ++ operator))
  | Option.some query_op =>
    let field_path := "labels/" ++ label_id ++ "." ++ field_id
    if norm_op = "is null" ∨ norm_op = "is not null" then
      .ok (field_path ++ " " ++ query_op)
    else
      match value with
      | Option.none => .error (.valueError ("Value is required for operator: " ++ operator))
      | Option.some v =>
        if norm_op = "in" ∨ norm_op = "not in" then
          match v with
          | .list elems =>
            .ok (query_op ++ " (" ++ String.intercalate ", " (elems.map searchVal)
                  ++ ") " ++ field_path)
          | v => .ok (query_op ++ " (" ++ searchVal v ++ ") " ++ field_path)
        else
          .ok (field_path ++ " " ++ query_op ++ " " ++ searchVal v)

/-- Round trip of `format_value` then `parse_value` at one field type, when
encoding succeeds with a wire dictionary. -/
def roundtrip (field_type : FieldType) (v : PyVal) : Option PyVal :=
  match format_value field_type v with
  | .ok (.dict d) => Option.some (parse_value field_type d)
  | _ => Option.none

/-!
### files/operations.py : process_batch_operation

The retry engine is embedded as a state-passing function.  The per-item
remote work (`operation_func`) is abstracted by an oracle
`outcome : Nat → ι → POutcome` giving, for each retry pass and item, whether
the call returns True, returns False, raises an `HttpError` with a given
status, or raises another exception.  Observable side effects — progress
callbacks (modelled as always supplied), `time.sleep` calls and the
invocations of `operation_func` — are recorded in an event trace.  The
optional audit logger only formats a log line and is not modelled.
-/

/-- Outcome of one invocation of `operation_func` on one item. -/
inductive POutcome where
  | success
  | returnedFalse
  | httpError (status : Nat)
  | otherError
deriving Repr, DecidableEq

/-- Observable events of one `process_batch_operation` run, in order:
progress-callback invocations, `operation_func` invocations, the inter-batch
pause sleep (line 244) and the retry-delay sleep (line 209). -/
inductive PEvent (ι : Type) where
  | progress (current total : Nat) (msg : Option String)
  | call (retry : Nat) (item : ι) (out : POutcome)
  | sleepPause (seconds : ℚ)
  | sleepRetry (seconds : ℚ)
deriving Repr, DecidableEq

/-- State of a run: the counters of the `results` dictionary, the local
`pause_seconds` variable, and the accumulated event trace.  `failed` is an
integer because the source decrements it. -/
structure PState (ι : Type) where
  successful : Nat
  failed : Int
  skipped : Nat
  retry_attempts : Nat
  errors : Nat
  pause : ℚ
  events : List (PEvent ι)
deriving Repr, DecidableEq

/-- Append one event to the trace. -/
def pemit {ι : Type} (e : PEvent ι) (st : PState ι) : PState ι :=
  { st with events := st.events ++ [e] }

/-- The rate-limit reaction of line 259:
`pause_seconds = min(pause_seconds * 2, 10)`. -/
def pauseStep (p : ℚ) : ℚ := min (p * 2) 10

/-- The retry-pass progress message of lines 205 and 221. -/
def retryMsg (retry retry_count : Nat) : String :=
  "Retry " ++ toString retry ++ "/" ++ toString retry_count

/-- Inner loop of one retry pass (`for i, item in enumerate(current_batch)`,
lines 214-270).  `passLen` is `len(current_batch)` for the inter-batch pause
condition; `newFailed` accumulates `new_failed_items`.  Returns the state
and the pass's failed items. -/
def runItems {ι : Type} (outcome : Nat → ι → POutcome)
    (retry_count batch_size total passLen retry : Nat) :
    List ι → Nat → PState ι → List ι → PState ι × List ι
  | [], _, st, newFailed => (st, newFailed)
  | item :: rest, i, st, newFailed =>
    let st := if i % 5 = 0 then
        pemit (.progress (st.successful + st.skipped + i) total
          (if 0 < retry then Option.some (retryMsg retry retry_count) else Option.none)) st
      else st
    let out := outcome retry item
    let st := pemit (.call retry item out) st
    match out with
    | .success =>
      let st := if retry = 0 then { st with successful := st.successful + 1 }
        else { st with successful := st.successful + 1, failed := st.failed - 1 }
      let st := if (i + 1) % batch_size = 0 ∧ i + 1 < passLen then
          pemit (.sleepPause st.pause) st
        else st
      runItems outcome retry_count batch_size total passLen retry rest (i + 1) st newFailed
    | .returnedFalse =>
      let newFailed := if retry < retry_count then newFailed ++ [item] else newFailed
      let st := if retry = 0 then { st with failed := st.failed + 1, errors := st.errors + 1 }
        else st
      let st := if (i + 1) % batch_size = 0 ∧ i + 1 < passLen then
          pemit (.sleepPause st.pause) st
        else st
      runItems outcome retry_count batch_size total passLen retry rest (i + 1) st newFailed
    | .httpError status =>
      let newFailed := if retry < retry_count then newFailed ++ [item] else newFailed
      let st := if retry = 0 then { st with failed := st.failed + 1, errors := st.errors + 1 }
        else st
      let st := if status = 429 then { st with pause := pauseStep st.pause } else st
      runItems outcome retry_count batch_size total passLen retry rest (i + 1) st newFailed
    | .otherError =>
      let newFailed := if retry < retry_count then newFailed ++ [item] else newFailed
      let st := if retry = 0 then { st with failed := st.failed + 1, errors := st.errors + 1 }
        else st
      runItems outcome retry_count batch_size total passLen retry rest (i + 1) st newFailed

/-- Pass loop of lines 195-277 (`for retry in range(retry_count + 1)`), with
the break when a pass produces no new failures.  Returns the final state and
the final value of `current_batch` — note that on the break the previous
pass's batch is kept, exactly as in the source. -/
def runPasses {ι : Type} (outcome : Nat → ι → POutcome)
    (retry_count batch_size total : Nat) (retry_delay : ℚ) :
    List Nat → List ι → PState ι → PState ι × List ι
  | [], current_batch, st => (st, current_batch)
  | retry :: rest, current_batch, st =>
    let st := if 0 < retry then
        let st := { st with retry_attempts := st.retry_attempts + 1 }
        let st := pemit (.progress (st.successful + st.skipped) total
          (Option.some (retryMsg retry retry_count))) st
        pemit (.sleepRetry retry_delay) st
      else st
    let res := runItems outcome retry_count batch_size total current_batch.length retry
        current_batch 0 st []
    if res.2.isEmpty then (res.1, current_batch)
    else runPasses outcome retry_count batch_size total retry_delay rest res.2 res.1

/-- `process_batch_operation` (`files/operations.py` lines 149-295):
multi-pass retry engine over a batch, returning the final state (counters
`total`/`successful`/`failed`/`skipped`/`errors`/`retry_attempts` of the
`results` dictionary plus the event trace).  `skipped` is set at the end to
`len(current_batch)` (line 280) and the final progress callback reports
`(total, total, "Complete")` (line 293). -/
def process_batch_operation {ι : Type} (outcome : Nat → ι → POutcome) (batch_data : List ι)
    (batch_size : Nat) (pause_seconds retry_delay : ℚ) (retry_count : Nat) : PState ι :=
  let total := batch_data.length
  let st : PState ι :=
    { successful := 0, failed := 0, skipped := 0, retry_attempts := 0, errors := 0,
      pause := pause_seconds, events := [] }
  let res := runPasses outcome retry_count batch_size total retry_delay
      (List.range (retry_count + 1)) batch_data st
  let st := { res.1 with skipped := res.2.length }
  pemit (.progress total total (Option.some "Complete")) st

/-- Number of `operation_func` invocations recorded for one item. -/
def callCount {ι : Type} [BEq ι] (events : List (PEvent ι)) (it : ι) : Nat :=
  (events.filter (fun e => match e with
    | .call _ j _ => j == it
    | _ => false)).length

/-- Whether an event is an `operation_func` invocation that raised a
rate-limit (HTTP 429) error. -/
def PEvent.isRateLimited {ι : Type} : PEvent ι → Bool
  | .call _ _ (.httpError status) => status == 429
  | _ => false

/-- Whether an event, if it is an inter-batch pause sleep, sleeps at most
`cap` seconds. -/
def PEvent.pauseWithin {ι : Type} (cap : ℚ) : PEvent ι → Bool
  | .sleepPause d => decide (d ≤ cap)
  | _ => true

/-- A rate-limited call has been seen in the trace. -/
def seenRL {ι : Type} (events : List (PEvent ι)) : Bool :=
  events.any PEvent.isRateLimited

/-- Once a rate-limited call has been seen (`seen` carries the flag), every
later inter-batch pause sleep in the trace is within the cap. -/
def capOKFrom {ι : Type} (cap : ℚ) : Bool → List (PEvent ι) → Bool
  | _, [] => true
  | seen, e :: rest =>
    ((!seen) || e.pauseWithin cap) && capOKFrom cap (seen || e.isRateLimited) rest

/-- Invariant of the retry engine used for the rate-limit cap property: the
trace so far respects the cap, and once a rate-limited call has been seen
the current `pause_seconds` is within the cap. -/
def PInv {ι : Type} (st : PState ι) : Prop :=
  capOKFrom 10 false st.events = true ∧ (seenRL st.events = true → st.pause ≤ 10)

/-!
### files/manager.py : FileManager.batch_update_files

The grouping executor is embedded with its collaborators as function
parameters: `extract` models `FileManager.extract_file_id`; `getLabel`
models `self.label_manager.get_label` (error = the call raised); `svcFields`
and `svcRemove` decide the outcome of the two `modifyLabels` request shapes
(field modifications vs `removeLabel`), `false` meaning the call raised an
exception, which the per-bucket `except` blocks catch.  The progress
callback is modelled as always supplied; the audit `log_action` at line 806
is a fire-and-forget side channel and is not modelled.  Since the only
raising operations the model admits are the remote calls and those are
caught at the bucket level, the per-file `except` of line 778 is
unreachable and has no separate branch in the embedding.
-/

/-- One operation dictionary as consumed by `batch_update_files`: the values
of the keys read via `op.get(...)`; a missing key is `Option.none`. -/
structure Op where
  operation : Option String
  file_id : Option String
  label_id : Option String
  field_id : Option String
  value : Option PyVal

/-- One entry of a label's `fields` list as read by the field-type search of
lines 672-675: `f.get("id")` (modelled as present — an absent id never
equals the present, truthy `field_id` string) and `f.get("type")`. -/
structure LabelField where
  id : String
  ftype : Option String
deriving Repr, DecidableEq

/-- A field modification dictionary, identified by its `set.../unset` key. -/
inductive FieldMod where
  | setText (fieldId value : String)
  | unsetValues (fieldId : String)
  | setSelection (fieldId valueId : String)
  | setInteger (fieldId : String) (n : Int)
  | setDate (fieldId value : String)
  | setUser (fieldId value : String)
deriving Repr, DecidableEq

/-- Module-level `_create_field_modification` (`files/manager.py` lines
815-857).  The `def` sits at column 0, so it closes the `FileManager` class
body and the function is *not* a method of the class (everything from line
859 on is dead code nested in its body); consequently
`self._create_field_modification` inside `batch_update_files` raises
`AttributeError` and this function is never reached from there.  The
`int(value)` of the INTEGER branch may raise. -/
def _create_field_modification (field_id field_type : String) (value : PyVal) :
    Except PyErr FieldMod :=
  if field_type = "SELECTION" then .ok (.setSelection field_id (pyStr value))
  else if field_type = "TEXT" ∨ field_type = "LONG_TEXT" then
    .ok (.setText field_id (pyStr value))
  else if field_type = "INTEGER" then
    match value with
    | .dict _ => .error (.typeError "int() argument must not be a dict")
    | .list _ => .error (.typeError "int() argument must not be a list")
    | v =>
      match pyInt v with
      | Option.some n => .ok (.setInteger field_id n)
      | Option.none => .error (.valueError ("invalid literal for int(): " ++ pyStr v))
  else if field_type = "DATE" then .ok (.setDate field_id (pyStr value))
  else if field_type = "USER" then .ok (.setUser field_id (pyStr value))
  else .ok (.setText field_id (pyStr value))

/-- Python truthiness of an optional string (`if not x: continue`). -/
def truthy : Option String → Bool
  | Option.none => false
  | Option.some s => !s.isEmpty

/-- Append `op` to the insertion-ordered group of `key`, creating the group
at the end when absent — a Python dict of lists. -/
def addToGroup (key : String) (op : Op) : List (String × List Op) → List (String × List Op)
  | [] => [(key, [op])]
  | (k, ops) :: rest =>
    if k = key then (k, ops ++ [op]) :: rest else (k, ops) :: addToGroup key op rest

/-- Lines 587-597: group operations by extracted file id, silently dropping
operations whose `file_id` is missing or empty. -/
def group_by_file (extract : String → String) (operations : List Op) :
    List (String × List Op) :=
  operations.foldl (fun groups op =>
    match op.file_id with
    | Option.none => groups
    | Option.some fid =>
      if fid = "" then groups else addToGroup (extract fid) op groups) []

/-- The two per-label buckets of lines 633-637. -/
structure LabelOps where
  applyOps : List Op
  removeOps : List Op

/-- Append an operation to a label's bucket, creating the label entry on
first sight (lines 628-644). -/
def addLabelOp (lid : String) (isRemove : Bool) (op : Op) :
    List (String × LabelOps) → List (String × LabelOps)
  | [] => [(lid, if isRemove then ⟨[], [op]⟩ else ⟨[op], []⟩)]
  | (k, lo) :: rest =>
    if k = lid then
      (k, if isRemove then { lo with removeOps := lo.removeOps ++ [op] }
          else { lo with applyOps := lo.applyOps ++ [op] }) :: rest
    else (k, lo) :: addLabelOp lid isRemove op rest

/-- Lines 624-644: group one file's operations by label id, dropping
operations whose `label_id` is missing or empty; `remove` operations go to
the remove bucket, every other operation kind to the apply bucket. -/
def group_by_label (file_ops : List Op) : List (String × LabelOps) :=
  file_ops.foldl (fun acc op =>
    match op.label_id with
    | Option.none => acc
    | Option.some lid =>
      if lid = "" then acc
      else addLabelOp lid (op.operation == Option.some "remove") op acc) []

/-- Lines 670-675: the first field with a matching id gives `f.get("type")`. -/
def findFieldType (fields : List LabelField) (field_id : String) : Option String :=
  match fields.find? (fun f => f.id == field_id) with
  | Option.some f => f.ftype
  | Option.none => Option.none

/-- Per-operation contribution to `field_modifications` (lines 654-696).
For apply/update with a non-None value: when the label fetch raises, the
inner `except` of line 683 appends the text fallback; when the field's
declared type is found and truthy, `self._create_field_modification(...)`
raises `AttributeError` (see `_create_field_modification`), which the same
`except` catches — again appending the text fallback; when the type is not
found or falsy, nothing is appended.  `unset` appends an unset marker;
other kinds and valueless apply/update operations append nothing. -/
def applyOpMods (getLabel : String → Except String (List LabelField))
    (label_id : String) (op : Op) : List FieldMod :=
  match op.field_id with
  | Option.none => []
  | Option.some fid =>
    if fid = "" then []
    else if op.operation = Option.some "apply" ∨ op.operation = Option.some "update" then
      match op.value with
      | Option.none => []
      | Option.some v =>
        match getLabel label_id with
        | .error _ => [FieldMod.setText fid (pyStr v)]
        | .ok fields =>
          match findFieldType fields fid with
          | Option.some t => if t = "" then [] else [FieldMod.setText fid (pyStr v)]
          | Option.none => []
    else if op.operation = Option.some "unset" then [FieldMod.unsetValues fid]
    else []

/-- Lines 650-696: the ordered `field_modifications` list of one label's
apply bucket. -/
def collect_field_modifications (getLabel : String → Except String (List LabelField))
    (label_id : String) : List Op → List FieldMod
  | [] => []
  | op :: rest =>
    applyOpMods getLabel label_id op ++ collect_field_modifications getLabel label_id rest

/-- Observable events of a `batch_update_files` run: progress-callback
invocations, the two remote call shapes, and the inter-batch sleep. -/
inductive BEvent where
  | progress (current total : Nat) (msg : Option String)
  | callFields (fileId labelId : String) (mods : List FieldMod)
  | callRemove (fileId labelId : String)
  | sleep (seconds : ℚ)
deriving Repr, DecidableEq

/-- One entry of `results["results"]`. -/
structure OpRecord where
  operation : Option String
  file_id : String
  label_id : String
  success : Bool
deriving Repr, DecidableEq

/-- The `results` dictionary of `batch_update_files`, the `processed_count`
local, and the event trace (`errors` counts the error strings). -/
structure BState where
  total : Nat
  successful : Nat
  failed : Nat
  records : List OpRecord
  errors : Nat
  processed : Nat
  events : List BEvent
deriving Repr, DecidableEq

/-- Append one event to the trace. -/
def bemit (e : BEvent) (st : BState) : BState := { st with events := st.events ++ [e] }

/-- Lines 712-721 and 752-761: record one bucket's operations as successful
(`opname` is `op.get("operation")` for the apply bucket and the literal
`"remove"` for the remove bucket). -/
def markSuccess (file_id label_id : String) (opname : Op → Option String)
    (ops : List Op) (st : BState) : BState :=
  ops.foldl (fun st op =>
    { st with successful := st.successful + 1,
              records := st.records ++
                [{ operation := opname op, file_id := file_id,
                   label_id := label_id, success := true }],
              processed := st.processed + 1 }) st

/-- Lines 723-736 and 763-776: record one bucket's operations as failed. -/
def markFailed (file_id label_id : String) (opname : Op → Option String)
    (ops : List Op) (st : BState) : BState :=
  ops.foldl (fun st op =>
    { st with failed := st.failed + 1, errors := st.errors + 1,
              records := st.records ++
                [{ operation := opname op, file_id := file_id,
                   label_id := label_id, success := false }],
              processed := st.processed + 1 }) st

/-- Lines 647-776: process one label's buckets for one file — the apply
bucket first (one `modifyLabels` call carrying the collected field
modifications, when any), then the remove bucket (a separate `modifyLabels`
call carrying `removeLabel`). -/
def processLabel (getLabel : String → Except String (List LabelField))
    (svcFields : String → String → List FieldMod → Bool)
    (svcRemove : String → String → Bool)
    (file_id label_id : String) (lo : LabelOps) (st : BState) : BState :=
  let st :=
    if lo.applyOps.isEmpty then st
    else
      let mods := collect_field_modifications getLabel label_id lo.applyOps
      if mods.isEmpty then st
      else
        let st := bemit (.callFields file_id label_id mods) st
        if svcFields file_id label_id mods then
          markSuccess file_id label_id Op.operation lo.applyOps st
        else
          markFailed file_id label_id Op.operation lo.applyOps st
  if lo.removeOps.isEmpty then st
  else
    let st := bemit (.callRemove file_id label_id) st
    if svcRemove file_id label_id then
      markSuccess file_id label_id (fun _ => Option.some "remove") lo.removeOps st
    else
      markFailed file_id label_id (fun _ => Option.some "remove") lo.removeOps st

/-- Lines 611-795: one iteration of the per-file loop, including the two
progress-callback invocations around the label processing. -/
def processFile (getLabel : String → Except String (List LabelField))
    (svcFields : String → String → List FieldMod → Bool)
    (svcRemove : String → String → Bool)
    (total_ops total_groups group_count : Nat)
    (file_id : String) (file_ops : List Op) (st : BState) : BState :=
  let st := bemit (.progress st.processed total_ops
    (Option.some ("Processing file " ++ toString group_count ++ "/"
      ++ toString total_groups))) st
  let st := (group_by_label file_ops).foldl
    (fun st p => processLabel getLabel svcFields svcRemove file_id p.1 p.2 st) st
  bemit (.progress st.processed total_ops Option.none) st

/-- Structural worker for `chunks`: `fuel` bounds the recursion depth and
is irrelevant whenever it is at least the list length (see
`chunksAux_fuel`); structural recursion keeps the definition computable by
the kernel. -/
def chunksAux (n : Nat) : Nat → List (String × List Op) → List (List (String × List Op))
  | _, [] => []
  | 0, l => [l]
  | fuel + 1, x :: xs =>
    if n = 0 then [x :: xs]
    else (x :: xs).take n :: chunksAux n fuel ((x :: xs).drop n)

/-- The `range(0, len(file_ids), batch_size)` slicing; meaningful for a
positive `batch_size` (Python raises `ValueError` for a zero step). -/
def chunks (n : Nat) (l : List (String × List Op)) : List (List (String × List Op)) :=
  chunksAux n l.length l

/-- Lines 604-799: iterate the file groups batch by batch, sleeping one
second between batches (line 799); `group_count` numbers the files across
the whole run. -/
def runChunks (getLabel : String → Except String (List LabelField))
    (svcFields : String → String → List FieldMod → Bool)
    (svcRemove : String → String → Bool)
    (total_ops total_groups : Nat) :
    List (List (String × List Op)) → Nat → BState → BState
  | [], _, st => st
  | c :: rest, group_count, st =>
    let p := c.foldl (fun (p : BState × Nat) fg =>
      (processFile getLabel svcFields svcRemove total_ops total_groups (p.2 + 1)
        fg.1 fg.2 p.1, p.2 + 1)) (st, group_count)
    let st := if rest.isEmpty then p.1 else bemit (.sleep 1) p.1
    runChunks getLabel svcFields svcRemove total_ops total_groups rest p.2 st

/-- `FileManager.batch_update_files` (`files/manager.py` lines 547-812):
group the operations by file and label, process the groups in batches, and
return the aggregate results together with the event trace. -/
def batch_update_files (extract : String → String)
    (getLabel : String → Except String (List LabelField))
    (svcFields : String → String → List FieldMod → Bool)
    (svcRemove : String → String → Bool)
    (operations : List Op) (batch_size : Nat) : BState :=
  let st : BState := { total := operations.length, successful := 0, failed := 0,
                       records := [], errors := 0, processed := 0, events := [] }
  let file_groups := group_by_file extract operations
  let st := runChunks getLabel svcFields svcRemove operations.length file_groups.length
    (chunks batch_size file_groups) 0 st
  bemit (.progress operations.length operations.length (Option.some "Complete")) st

/-- The remote calls of a trace, in order. -/
def serviceCalls (events : List BEvent) : List BEvent :=
  events.filter (fun e => match e with
    | .callFields _ _ _ => true
    | .callRemove _ _ => true
    | _ => false)

/-- An operation dropped at file grouping (missing or empty `file_id`). -/
def badFile (op : Op) : Bool := !truthy op.file_id

/-- An operation kept at file grouping but dropped at label grouping. -/
def badLabel (op : Op) : Bool := truthy op.file_id && !truthy op.label_id

/-- Result records contributed by one label bucket: all apply-bucket
operations when the bucket yields at least one field modification, plus all
remove-bucket operations. -/
def bucketRecorded (getLabel : String → Except String (List LabelField))
    (label_id : String) (lo : LabelOps) : Nat :=
  (if (collect_field_modifications getLabel label_id lo.applyOps).isEmpty then 0
   else lo.applyOps.length) + lo.removeOps.length

/-- Apply-bucket operations that produce no result record because their
bucket yields no field modification. -/
def bucketDropped (getLabel : String → Except String (List LabelField))
    (label_id : String) (lo : LabelOps) : Nat :=
  if (collect_field_modifications getLabel label_id lo.applyOps).isEmpty then
    lo.applyOps.length
  else 0

/-- Total number of apply-like operations across all groups whose group
produced no field modifications (and hence no record and no remote call). -/
def droppedApplyCount (extract : String → String)
    (getLabel : String → Except String (List LabelField)) (operations : List Op) : Nat :=
  (((group_by_file extract operations).map (fun g =>
    ((group_by_label g.2).map (fun p => bucketDropped getLabel p.1 p.2)).sum)).sum)

/-- The property of every field-modification call event in a
`batch_update_files` trace: every modification carried is a text set or an
unset marker (never a typed selection/integer/date/user modification). -/
def onlyTextMods (e : BEvent) : Prop :=
  ∀ (fileId labelId : String) (mods : List FieldMod),
    e = BEvent.callFields fileId labelId mods →
    ∀ m ∈ mods, (∃ f s, m = FieldMod.setText f s) ∨ (∃ f, m = FieldMod.unsetValues f)

/-- Result records contributed by all of one file group. -/
def fileRecorded (getLabel : String → Except String (List LabelField)) (fops : List Op) : Nat :=
  ((group_by_label fops).map (fun p => bucketRecorded getLabel p.1 p.2)).sum

/-- Recordless apply-bucket operations of one file group. -/
def fileDropped (getLabel : String → Except String (List LabelField)) (fops : List Op) : Nat :=
  ((group_by_label fops).map (fun p => bucketDropped getLabel p.1 p.2)).sum

/-- C3: the claim says `encode(DATE, v)` raises `InvalidValue` exactly when
the stringified value is shorter than 10 characters, and in particular that
`encode(DATE, "2024-1-1")` raises.  The source checks `len(value) < 8`
(while its own inline comment reads `Minimum YYYY-MM-DD`, a 10-character
format): `"2024-1-1"` (8 characters) is accepted and passed through, and
only values of at most 7 characters are rejected. -/
theorem C3_date_length_check_is_eight :
    format_value .DATE (.str "2024-1-1") = .ok (.dict [("dateValue", .str "2024-1-1")])
  ∧ format_value .DATE (.str "2024-01-01") = .ok (.dict [("dateValue", .str "2024-01-01")])
  ∧ format_value .DATE (.str "2024-1")
      = .error (.valueError "Invalid date format: 2024-1. Use ISO format (YYYY-MM-DD).") :=
  ⟨rfl, rfl, rfl⟩

/-- C5: for all supported field types, `parse_value` after `format_value`
reproduces the logical value over each type's valid domain: strings for
TEXT/LONG_TEXT, integers for INTEGER, ISO-length strings for DATE, and bare
identifier strings for USER/SELECTION; a structured USER record decodes to
its `emailAddress` entry only (a display name is not preserved). -/
theorem C5_field_value_roundtrip :
    (∀ s : String, roundtrip .TEXT (.str s) = Option.some (.str s))
  ∧ (∀ s : String, roundtrip .LONG_TEXT (.str s) = Option.some (.str s))
  ∧ (∀ n : Int, roundtrip .INTEGER (.int n) = Option.some (.int n))
  ∧ (∀ s : String, 10 ≤ s.length → roundtrip .DATE (.str s) = Option.some (.str s))
  ∧ (∀ s : String, roundtrip .USER (.str s) = Option.some (.str s))
  ∧ (∀ s : String, roundtrip .SELECTION (.str s) = Option.some (.str s))
  ∧ (∀ (e : PyVal) (rest : List (String × PyVal)),
      roundtrip .USER (.dict (("emailAddress", e) :: rest)) = Option.some e) := by
  refine ⟨?_, ?_, ?_, ?_, ?_, ?_, ?_⟩
  · intro s; simp [roundtrip, format_value, parse_value, pyStr, List.lookup]
  · intro s; simp [roundtrip, format_value, parse_value, pyStr, List.lookup]
  · intro n; simp [roundtrip, format_value, parse_value, pyInt, List.lookup]
  · intro s h
    have h8 : ¬ s.length < 8 := by omega
    simp [roundtrip, format_value, parse_value, h8, List.lookup]
  · intro s; simp [roundtrip, format_value, parse_value, pyStr, List.lookup]
  · intro s; simp [roundtrip, format_value, parse_value, pyStr, List.lookup]
  · intro e rest
    simp [roundtrip, format_value, parse_value, List.lookup]

/-- Witness for C5 at concrete inputs: the DATE hypothesis holds at
`"2024-01-01"` and the round trip evaluates as stated. -/
theorem C5_field_value_roundtrip_witness :
    10 ≤ ("2024-01-01" : String).length
  ∧ roundtrip .DATE (.str "2024-01-01") = Option.some (.str "2024-01-01")
  ∧ roundtrip .INTEGER (.int 42) = Option.some (.int 42) :=
  ⟨by decide, C5_field_value_roundtrip.2.2.2.1 "2024-01-01" (by decide),
    C5_field_value_roundtrip.2.2.1 42⟩

/-- C8: `format_search_query` builds, for every label id and field id, a
predicate with no value clause for the null-check operators (ignoring any
supplied value, matched case-insensitively); every other supported operator
with an absent value fails with the missing-value error; and any operator
outside the table (after lowercasing) fails with the invalid-operator
error. -/
theorem C8_search_predicate :
    (∀ (L f : String) (v : Option PyVal) (op : String), strLower op = "is null" →
        format_search_query L f op v = .ok ("labels/" ++ L ++ "." ++ f ++ " IS NULL"))
  ∧ (∀ (L f : String) (v : Option PyVal) (op : String), strLower op = "is not null" →
        format_search_query L f op v = .ok ("labels/" ++ L ++ "." ++ f ++ " IS NOT NULL"))
  ∧ (∀ (L f op q : String), valid_operators.lookup (strLower op) = Option.some q →
        strLower op ≠ "is null" → strLower op ≠ "is not null" →
        format_search_query L f op Option.none
          = .error (.valueError ("Value is required for operator: " ++ op)))
  ∧ (∀ (L f op : String) (v : Option PyVal), valid_operators.lookup (strLower op) = Option.none →
        format_search_query L f op v = .error (.valueError ("Invalid operator: " ++ op))) := by
  refine ⟨?_, ?_, ?_, ?_⟩
  · intro L f v op h
    simp [format_search_query, h, valid_operators, List.lookup, String.append_assoc]
  · intro L f v op h
    simp [format_search_query, h, valid_operators, List.lookup, String.append_assoc]
  · intro L f op q hq h1 h2
    simp [format_search_query, hq, h1, h2]
  · intro L f op v h
    simp [format_search_query, h]

/-- Witness for C8 at concrete operators: a null check in uppercase ignores
a supplied value, `=` with no value is the missing-value error, and `~~` is
the invalid-operator error. -/
theorem C8_search_predicate_witness :
    (strLower "IS NULL" = "is null"
      ∧ format_search_query "L1" "f1" "IS NULL" (Option.some (.str "ignored"))
          = .ok "labels/L1.f1 IS NULL")
  ∧ (valid_operators.lookup (strLower "=") = Option.some "="
      ∧ format_search_query "L1" "f1" "=" Option.none
          = .error (.valueError "Value is required for operator: ="))
  ∧ (valid_operators.lookup (strLower "~~") = Option.none
      ∧ format_search_query "L1" "f1" "~~" Option.none
          = .error (.valueError "Invalid operator: ~~")) :=
  ⟨⟨by decide, C8_search_predicate.1 "L1" "f1" (Option.some (.str "ignored")) "IS NULL" (by decide)⟩,
   ⟨by decide, C8_search_predicate.2.2.1 "L1" "f1" "=" "=" (by decide) (by decide) (by decide)⟩,
   ⟨by decide, C8_search_predicate.2.2.2 "L1" "f1" "~~" Option.none (by decide)⟩⟩


set_option maxHeartbeats 1000000 in
/-- Inner-loop characterization when every outcome is a failure: the pass
queues exactly the processed items for retry when passes remain, increments
`failed` once per item on pass 0 only, and never touches `successful` or
`skipped`. -/
theorem runItems_fail {ι : Type} (outcome : Nat → ι → POutcome)
    (rc bs tot plen retry : Nat)
    (hfail : ∀ r it, outcome r it ≠ POutcome.success) :
    ∀ (items : List ι) (i : Nat) (st : PState ι) (nf : List ι),
      (runItems outcome rc bs tot plen retry items i st nf).2
          = nf ++ (if retry < rc then items else [])
      ∧ (runItems outcome rc bs tot plen retry items i st nf).1.successful = st.successful
      ∧ (runItems outcome rc bs tot plen retry items i st nf).1.failed
          = st.failed + (if retry = 0 then (items.length : Int) else 0)
      ∧ (runItems outcome rc bs tot plen retry items i st nf).1.skipped = st.skipped := by
  intro items
  induction items with
  | nil => intro i st nf; simp [runItems]
  | cons item rest ih =>
    intro i st nf
    cases h : outcome retry item with
    | success => exact absurd h (hfail retry item)
    | returnedFalse =>
      simp only [runItems, h]
      refine ⟨?_, ?_, ?_, ?_⟩
      · rw [(ih _ _ _).1]
        by_cases hrc : retry < rc <;> simp [hrc, List.append_assoc]
      · rw [(ih _ _ _).2.1]; split_ifs <;> simp [pemit]
      · rw [(ih _ _ _).2.2.1]; split_ifs <;> simp [pemit] <;> omega
      · rw [(ih _ _ _).2.2.2]; split_ifs <;> simp [pemit]
    | httpError status =>
      simp only [runItems, h]
      refine ⟨?_, ?_, ?_, ?_⟩
      · rw [(ih _ _ _).1]
        by_cases hrc : retry < rc <;> simp [hrc, List.append_assoc]
      · rw [(ih _ _ _).2.1]; split_ifs <;> simp [pemit]
      · rw [(ih _ _ _).2.2.1]; split_ifs <;> simp [pemit] <;> omega
      · rw [(ih _ _ _).2.2.2]; split_ifs <;> simp [pemit]
    | otherError =>
      simp only [runItems, h]
      refine ⟨?_, ?_, ?_, ?_⟩
      · rw [(ih _ _ _).1]
        by_cases hrc : retry < rc <;> simp [hrc, List.append_assoc]
      · rw [(ih _ _ _).2.1]; split_ifs <;> simp [pemit]
      · rw [(ih _ _ _).2.2.1]; split_ifs <;> simp [pemit] <;> omega
      · rw [(ih _ _ _).2.2.2]; split_ifs <;> simp [pemit]



set_option maxHeartbeats 1000000 in
/-- Retry-pass characterization when every outcome is a failure: passes
with positive index never change `successful`, `failed` or `skipped`, and
the final `current_batch` keeps its length. -/
theorem runPasses_fail {ι : Type} (outcome : Nat → ι → POutcome)
    (rc bs tot : Nat) (d : ℚ)
    (hfail : ∀ r it, outcome r it ≠ POutcome.success) :
    ∀ (passes : List Nat) (batch : List ι) (st : PState ι),
      (∀ r ∈ passes, 0 < r) →
      (runPasses outcome rc bs tot d passes batch st).1.successful = st.successful
      ∧ (runPasses outcome rc bs tot d passes batch st).1.failed = st.failed
      ∧ (runPasses outcome rc bs tot d passes batch st).1.skipped = st.skipped
      ∧ (runPasses outcome rc bs tot d passes batch st).2.length = batch.length := by
  intro passes
  induction passes with
  | nil => intro batch st _; simp [runPasses]
  | cons retry rest ih =>
    intro batch st hpos
    have hr : 0 < retry := hpos retry (by simp)
    have hrne : retry ≠ 0 := by omega
    simp only [runPasses, if_pos hr]
    rw [(runItems_fail outcome rc bs tot batch.length retry hfail batch 0 _ []).1]
    simp only [List.nil_append]
    by_cases hrc : retry < rc
    · by_cases hbatch : batch = []
      · subst hbatch
        simp only [if_pos hrc, List.isEmpty_nil, if_true]
        rw [(runItems_fail outcome rc bs tot ([] : List ι).length retry hfail [] 0 _ []).2.1,
          (runItems_fail outcome rc bs tot ([] : List ι).length retry hfail [] 0 _ []).2.2.1,
          (runItems_fail outcome rc bs tot ([] : List ι).length retry hfail [] 0 _ []).2.2.2]
        simp [pemit, hrne]
      · have hne : (if retry < rc then batch else []).isEmpty = false := by
          simp [hrc, List.isEmpty_iff, hbatch]
        rw [hne]
        simp only [Bool.false_eq_true, if_false, if_pos hrc]
        obtain ⟨f1, f2, f3, f4⟩ := ih batch _ (fun r hrr => hpos r (by simp [hrr]))
        refine ⟨?_, ?_, ?_, ?_⟩
        · rw [f1, (runItems_fail outcome rc bs tot batch.length retry hfail batch 0 _ []).2.1]
          simp [pemit]
        · rw [f2, (runItems_fail outcome rc bs tot batch.length retry hfail batch 0 _ []).2.2.1]
          simp [pemit, hrne]
        · rw [f3, (runItems_fail outcome rc bs tot batch.length retry hfail batch 0 _ []).2.2.2]
          simp [pemit]
        · rw [f4]
    · have hemp : (if retry < rc then batch else []).isEmpty = true := by simp [hrc]
      rw [hemp]
      simp only [if_true]
      rw [(runItems_fail outcome rc bs tot batch.length retry hfail batch 0 _ []).2.1,
        (runItems_fail outcome rc bs tot batch.length retry hfail batch 0 _ []).2.2.1,
        (runItems_fail outcome rc bs tot batch.length retry hfail batch 0 _ []).2.2.2]
      simp [pemit, hrne]



set_option maxHeartbeats 1000000 in
/-- C1 (amended): for every batch run in which every call fails on every
pass, with any configured retry count, the aggregate reports successful=0,
failed equal to the number of operations (the exhausted operations stay
counted as failed), skipped equal to the number of operations, and the
final progress invocation is (total, total, "Complete"). -/
theorem C1_always_fail_amended (outcome : Nat → Nat → POutcome) (items : List Nat)
    (batch_size retry_count : Nat) (pause_seconds retry_delay : ℚ)
    (hfail : ∀ r it, outcome r it ≠ POutcome.success) :
    (process_batch_operation outcome items batch_size pause_seconds retry_delay
        retry_count).successful = 0
  ∧ (process_batch_operation outcome items batch_size pause_seconds retry_delay
        retry_count).failed = (items.length : Int)
  ∧ (process_batch_operation outcome items batch_size pause_seconds retry_delay
        retry_count).skipped = items.length
  ∧ (process_batch_operation outcome items batch_size pause_seconds retry_delay
        retry_count).events.getLast?
      = Option.some (PEvent.progress items.length items.length (Option.some "Complete")) := by
  have key : ∀ st : PState Nat,
      (runPasses outcome retry_count batch_size items.length retry_delay
          (List.range (retry_count + 1)) items st).1.successful = st.successful
    ∧ (runPasses outcome retry_count batch_size items.length retry_delay
          (List.range (retry_count + 1)) items st).1.failed = st.failed + (items.length : Int)
    ∧ (runPasses outcome retry_count batch_size items.length retry_delay
          (List.range (retry_count + 1)) items st).2.length = items.length := by
    intro st
    rw [List.range_succ_eq_map]
    simp only [runPasses, Nat.lt_irrefl, if_neg (lt_irrefl 0)]
    rw [(runItems_fail outcome retry_count batch_size items.length items.length 0 hfail
      items 0 _ []).1]
    simp only [List.nil_append]
    by_cases hrc : 0 < retry_count
    · by_cases hitems : items = []
      · subst hitems
        simp only [if_pos hrc, List.isEmpty_nil, if_true]
        rw [(runItems_fail outcome retry_count batch_size ([] : List Nat).length
            ([] : List Nat).length 0 hfail [] 0 _ []).2.1,
          (runItems_fail outcome retry_count batch_size ([] : List Nat).length
            ([] : List Nat).length 0 hfail [] 0 _ []).2.2.1]
        simp
      · have hne : (if 0 < retry_count then items else []).isEmpty = false := by
          simp [hrc, List.isEmpty_iff, hitems]
        rw [hne]
        simp only [Bool.false_eq_true, if_false, if_pos hrc]
        obtain ⟨f1, f2, f3, f4⟩ := runPasses_fail outcome retry_count batch_size items.length
          retry_delay hfail (List.map Nat.succ (List.range retry_count)) items _
          (by intro r hrr; simp only [List.mem_map] at hrr; omega)
        refine ⟨?_, ?_, ?_⟩
        · rw [f1, (runItems_fail outcome retry_count batch_size items.length items.length 0 hfail
            items 0 _ []).2.1]
        · rw [f2, (runItems_fail outcome retry_count batch_size items.length items.length 0 hfail
            items 0 _ []).2.2.1]
          simp
        · rw [f4]
    · have hemp : (if 0 < retry_count then items else []).isEmpty = true := by
        simp [hrc]
      rw [hemp]
      simp only [if_true]
      rw [(runItems_fail outcome retry_count batch_size items.length items.length 0 hfail
          items 0 _ []).2.1,
        (runItems_fail outcome retry_count batch_size items.length items.length 0 hfail
          items 0 _ []).2.2.1]
      simp
  obtain ⟨k1, k2, k3⟩ := key
    { successful := 0, failed := 0, skipped := 0, retry_attempts := 0, errors := 0,
      pause := pause_seconds, events := [] }
  simp only [process_batch_operation]
  refine ⟨?_, ?_, ?_, ?_⟩
  · simp [pemit, k1]
  · simp [pemit, k2]
  · simp [pemit, k3]
  · simp [pemit, List.getLast?_concat]



/-- C1 counterexample: two operations whose calls raise on every pass with
retry_count=2 end with failed=2, not failed=0 as the claim states, so the
claimed aggregate (successful=0, failed=0, skipped=2) is false. -/
theorem C1_counterexample :
    ¬ ((process_batch_operation (fun _ _ => POutcome.otherError) [0, 1] 10 1 2 2).successful = 0
      ∧ (process_batch_operation (fun _ _ => POutcome.otherError) [0, 1] 10 1 2 2).failed = 0
      ∧ (process_batch_operation (fun _ _ => POutcome.otherError) [0, 1] 10 1 2 2).skipped = 2) := by
  decide

/-- Witness for C1 (amended) at a concrete always-failing run of two
operations with retry_count=2. -/
theorem C1_witness :
    (∀ r it : Nat, (fun _ _ => POutcome.otherError : Nat → Nat → POutcome) r it ≠ POutcome.success)
  ∧ (process_batch_operation (fun _ _ => POutcome.otherError) [0, 1] 10 1 2 2).failed = 2 :=
  ⟨fun _ _ h => POutcome.noConfusion h,
   (C1_always_fail_amended (fun _ _ => POutcome.otherError) [0, 1] 10 2 1 2
      (fun _ _ h => POutcome.noConfusion h)).2.1⟩

/-- C2: evaluation of the code at the claim scenario — 3 operations that
fail on passes 0 and 1 and succeed on pass 2, with retry_count=3.  The
aggregate shows successful=3 and failed=0 and each operation is invoked
exactly 3 times, as claimed, but skipped=3 instead of the claimed 0: line
280 sets skipped to the length of `current_batch`, which still holds the
items that were retried (successfully) in the final pass.  The last
conjunct shows the same slip on an all-success run, contradicting the
source comment that skipped counts items that could not be retried
successfully. -/
theorem C2_code_eval :
    (process_batch_operation
        (fun r _ => if r < 2 then POutcome.otherError else POutcome.success)
        [0, 1, 2] 10 1 2 3).successful = 3
  ∧ (process_batch_operation
        (fun r _ => if r < 2 then POutcome.otherError else POutcome.success)
        [0, 1, 2] 10 1 2 3).failed = 0
  ∧ (process_batch_operation
        (fun r _ => if r < 2 then POutcome.otherError else POutcome.success)
        [0, 1, 2] 10 1 2 3).skipped = 3
  ∧ (∀ it ∈ [0, 1, 2], callCount (process_batch_operation
        (fun r _ => if r < 2 then POutcome.otherError else POutcome.success)
        [0, 1, 2] 10 1 2 3).events it = 3)
  ∧ (process_batch_operation (fun _ _ => POutcome.success) [0, 1] 10 1 2 3).skipped = 2 := by
  decide



/-- `capOKFrom` splits over an appended trace, with the seen-flag of the
suffix accumulated from the prefix. -/
theorem capOKFrom_append {ι : Type} (cap : ℚ) :
    ∀ (l1 l2 : List (PEvent ι)) (b : Bool),
      capOKFrom cap b (l1 ++ l2)
        = (capOKFrom cap b l1 && capOKFrom cap (b || seenRL l1) l2) := by
  intro l1
  induction l1 with
  | nil => intro l2 b; simp [capOKFrom, seenRL]
  | cons e l1 ih =>
    intro l2 b
    simp [capOKFrom, seenRL, ih, Bool.and_assoc, Bool.or_assoc, List.any_cons]

/-- A rate-limited call is in an appended trace iff it is in one part. -/
theorem seenRL_append {ι : Type} (l1 l2 : List (PEvent ι)) :
    seenRL (l1 ++ l2) = (seenRL l1 || seenRL l2) := by
  simp [seenRL, List.any_append]

/-- Emitting an event that is neither a rate-limited call nor an
over-cap pause preserves the invariant. -/
theorem PInv_pemit_neutral {ι : Type} {st : PState ι} (h : PInv st) (e : PEvent ι)
    (hrl : e.isRateLimited = false) (hpw : e.pauseWithin 10 = true) : PInv (pemit e st) := by
  obtain ⟨h1, h2⟩ := h
  constructor
  · show capOKFrom 10 false (st.events ++ [e]) = true
    rw [capOKFrom_append]
    simp [h1, capOKFrom, hpw]
  · intro hs
    show st.pause ≤ 10
    apply h2
    have : seenRL (st.events ++ [e]) = true := hs
    rw [seenRL_append] at this
    simpa [seenRL, hrl] using this

/-- Emitting an inter-batch pause sleep of the current pause preserves the
invariant: before a rate limit the cap check is vacuous, after one the
pause is within the cap. -/
theorem PInv_pemit_sleep {ι : Type} {st : PState ι} (h : PInv st) :
    PInv (pemit (PEvent.sleepPause st.pause) st) := by
  obtain ⟨h1, h2⟩ := h
  constructor
  · show capOKFrom 10 false (st.events ++ [PEvent.sleepPause st.pause]) = true
    rw [capOKFrom_append]
    by_cases hs : seenRL st.events = true
    · simp [h1, capOKFrom, hs, PEvent.pauseWithin, h2 hs]
    · simp only [Bool.not_eq_true] at hs
      simp [h1, capOKFrom, hs]
  · intro hs
    show st.pause ≤ 10
    apply h2
    have : seenRL (st.events ++ [PEvent.sleepPause st.pause]) = true := hs
    rw [seenRL_append] at this
    simpa [seenRL, PEvent.isRateLimited] using this

/-- A state whose trace ends with a rate-limited call and whose pause was
just set by `pauseStep` satisfies the invariant. -/
theorem PInv_any_rl {ι : Type} (st' st : PState ι) (h : PInv st) (r : Nat) (it : ι) (q : ℚ)
    (he : st'.events = st.events ++ [PEvent.call r it (POutcome.httpError 429)])
    (hp : st'.pause = pauseStep q) : PInv st' := by
  obtain ⟨h1, _⟩ := h
  constructor
  · rw [he, capOKFrom_append]
    simp [h1, capOKFrom, PEvent.pauseWithin]
  · intro _
    rw [hp]
    exact min_le_right _ _

/-- Counter updates do not touch the trace or the pause. -/
theorem PInv_upd_fe {ι : Type} {st : PState ι} (h : PInv st) (b : Int) (c : Nat) :
    PInv { st with failed := b, errors := c } := h

theorem PInv_upd_s {ι : Type} {st : PState ι} (h : PInv st) (a : Nat) :
    PInv { st with successful := a } := h

theorem PInv_upd_sf {ι : Type} {st : PState ι} (h : PInv st) (a : Nat) (b : Int) :
    PInv { st with successful := a, failed := b } := h

theorem PInv_upd_ra {ι : Type} {st : PState ι} (h : PInv st) (a : Nat) :
    PInv { st with retry_attempts := a } := h



set_option maxHeartbeats 1000000 in
/-- The inner loop preserves the rate-limit cap invariant. -/
theorem runItems_PInv {ι : Type} (outcome : Nat → ι → POutcome)
    (rc bs tot plen retry : Nat) :
    ∀ (items : List ι) (i : Nat) (st : PState ι) (nf : List ι),
      PInv st → PInv (runItems outcome rc bs tot plen retry items i st nf).1 := by
  intro items
  induction items with
  | nil => intro i st nf hst; simpa [runItems] using hst
  | cons item rest ih =>
    intro i st nf hst
    have hA : PInv (if i % 5 = 0 then
        pemit (PEvent.progress (st.successful + st.skipped + i) tot
          (if 0 < retry then Option.some (retryMsg retry rc) else Option.none)) st
      else st) := by
      by_cases hi : i % 5 = 0
      · rw [if_pos hi]; exact PInv_pemit_neutral hst _ rfl rfl
      · rw [if_neg hi]; exact hst
    cases h : outcome retry item with
    | success =>
      simp only [runItems, h]
      apply ih
      have hB := PInv_pemit_neutral hA (PEvent.call retry item POutcome.success) rfl rfl
      by_cases hc5 : (i + 1) % bs = 0 ∧ i + 1 < plen
      · rw [if_pos hc5]
        refine PInv_pemit_sleep ?_
        by_cases hr0 : retry = 0
        · rw [if_pos hr0]; exact PInv_upd_s hB _
        · rw [if_neg hr0]; exact PInv_upd_sf hB _ _
      · rw [if_neg hc5]
        by_cases hr0 : retry = 0
        · rw [if_pos hr0]; exact PInv_upd_s hB _
        · rw [if_neg hr0]; exact PInv_upd_sf hB _ _
    | returnedFalse =>
      simp only [runItems, h]
      apply ih
      have hB := PInv_pemit_neutral hA (PEvent.call retry item POutcome.returnedFalse) rfl rfl
      by_cases hc5 : (i + 1) % bs = 0 ∧ i + 1 < plen
      · rw [if_pos hc5]
        refine PInv_pemit_sleep ?_
        by_cases hr0 : retry = 0
        · rw [if_pos hr0]; exact PInv_upd_fe hB _ _
        · rw [if_neg hr0]; exact hB
      · rw [if_neg hc5]
        by_cases hr0 : retry = 0
        · rw [if_pos hr0]; exact PInv_upd_fe hB _ _
        · rw [if_neg hr0]; exact hB
    | httpError status =>
      simp only [runItems, h]
      apply ih
      by_cases h429 : status = 429
      · subst h429
        rw [if_pos rfl]
        by_cases hr0 : retry = 0
        · rw [if_pos hr0]
          exact PInv_any_rl _ _ hA retry item _ rfl rfl
        · rw [if_neg hr0]
          exact PInv_any_rl _ _ hA retry item _ rfl rfl
      · have hB := PInv_pemit_neutral hA (PEvent.call retry item (POutcome.httpError status))
          (by simp [PEvent.isRateLimited, h429]) rfl
        rw [if_neg h429]
        by_cases hr0 : retry = 0
        · rw [if_pos hr0]; exact PInv_upd_fe hB _ _
        · rw [if_neg hr0]; exact hB
    | otherError =>
      simp only [runItems, h]
      apply ih
      have hB := PInv_pemit_neutral hA (PEvent.call retry item POutcome.otherError) rfl rfl
      by_cases hr0 : retry = 0
      · rw [if_pos hr0]; exact PInv_upd_fe hB _ _
      · rw [if_neg hr0]; exact hB

set_option maxHeartbeats 1000000 in
/-- The pass loop preserves the rate-limit cap invariant. -/
theorem runPasses_PInv {ι : Type} (outcome : Nat → ι → POutcome)
    (rc bs tot : Nat) (d : ℚ) :
    ∀ (passes : List Nat) (batch : List ι) (st : PState ι),
      PInv st → PInv (runPasses outcome rc bs tot d passes batch st).1 := by
  intro passes
  induction passes with
  | nil => intro batch st hst; simpa [runPasses] using hst
  | cons retry rest ih =>
    intro batch st hst
    by_cases hr : 0 < retry
    · simp only [runPasses, if_pos hr]
      have hA : PInv (pemit (PEvent.sleepRetry d)
          (pemit (PEvent.progress (({ st with retry_attempts := st.retry_attempts + 1 }).successful
              + ({ st with retry_attempts := st.retry_attempts + 1 }).skipped) tot
            (Option.some (retryMsg retry rc)))
            { st with retry_attempts := st.retry_attempts + 1 })) := by
        refine PInv_pemit_neutral ?_ _ rfl rfl
        refine PInv_pemit_neutral ?_ _ rfl rfl
        exact PInv_upd_ra hst _
      have hres := runItems_PInv outcome rc bs tot batch.length retry batch 0 _ [] hA
      split
      · exact hres
      · exact ih _ _ hres
    · simp only [runPasses, if_neg hr]
      have hres := runItems_PInv outcome rc bs tot batch.length retry batch 0 _ [] hst
      split
      · exact hres
      · exact ih _ _ hres



/-- C9: in every `process_batch_operation` run, after a rate-limited
(HTTP 429) call every later inter-batch pause sleep is at most the 10
second cap; and the pause update `pauseStep` doubles a pause that is
nonnegative and within the cap to a value no smaller than it and never
beyond the cap. -/
theorem C9_rate_limit_backoff_cap :
    (∀ (outcome : Nat → Nat → POutcome) (items : List Nat) (batch_size retry_count : Nat)
        (pause_seconds retry_delay : ℚ),
      capOKFrom 10 false (process_batch_operation outcome items batch_size pause_seconds
        retry_delay retry_count).events = true)
  ∧ (∀ p : ℚ, 0 ≤ p → p ≤ 10 → p ≤ pauseStep p ∧ pauseStep p ≤ 10) := by
  constructor
  · intro outcome items batch_size retry_count pause_seconds retry_delay
    have h0 : PInv ({ successful := 0, failed := 0, skipped := 0, retry_attempts := 0,
                      errors := 0, pause := pause_seconds, events := [] } : PState Nat) := by
      constructor
      · rfl
      · intro h; simp [seenRL] at h
    have hrun := runPasses_PInv outcome retry_count batch_size items.length retry_delay
      (List.range (retry_count + 1)) items _ h0
    exact (PInv_pemit_neutral hrun
      (PEvent.progress items.length items.length (Option.some "Complete")) rfl rfl).1
  · intro p h0 h10
    refine ⟨le_min (by linarith) h10, min_le_right _ _⟩

/-- Witness for C9 at the concrete pause 1/2. -/
theorem C9_witness :
    ((0 : ℚ) ≤ 1/2 ∧ (1/2 : ℚ) ≤ 10)
  ∧ ((1/2 : ℚ) ≤ pauseStep (1/2) ∧ pauseStep (1/2) ≤ 10) :=
  ⟨⟨by norm_num, by norm_num⟩,
    C9_rate_limit_backoff_cap.2 (1/2) (by norm_num) (by norm_num)⟩


/-- A single file group forms a single batch for any positive batch size. -/
theorem chunks_single (n : Nat) (hn : 0 < n) (g : String × List Op) :
    chunks n [g] = [[g]] := by
  cases n with
  | zero => omega
  | succ m => simp [chunks, chunksAux, List.take, List.drop]

/-- Two operations with the same (truthy) file id form exactly one file
group, in submission order. -/
theorem group_by_file_pair (extract : String → String) (F : String) (hF : F ≠ "")
    (op1 op2 : Op) (e1 : op1.file_id = Option.some F) (e2 : op2.file_id = Option.some F) :
    group_by_file extract [op1, op2] = [(extract F, [op1, op2])] := by
  simp [group_by_file, addToGroup, e1, e2, hF]



/-- Two non-remove operations with the same (truthy) label id form exactly
one label entry with both in the apply bucket. -/
theorem group_by_label_pair (L : String) (hL : L ≠ "")
    (op1 op2 : Op) (e1 : op1.label_id = Option.some L) (e2 : op2.label_id = Option.some L)
    (k1 : (op1.operation == Option.some "remove") = false)
    (k2 : (op2.operation == Option.some "remove") = false) :
    group_by_label [op1, op2] = [(L, ⟨[op1, op2], []⟩)] := by
  simp [group_by_label, addLabelOp, e1, e2, hL, k1, k2]

/-- A remove and an apply operation on the same label id share one label
entry, with the buckets separated. -/
theorem group_by_label_remove_apply (L : String) (hL : L ≠ "")
    (opR opA : Op) (e1 : opR.label_id = Option.some L) (e2 : opA.label_id = Option.some L)
    (k1 : (opR.operation == Option.some "remove") = true)
    (k2 : (opA.operation == Option.some "remove") = false) :
    group_by_label [opR, opA] = [(L, ⟨[opA], [opR]⟩)] := by
  simp [group_by_label, addLabelOp, e1, e2, hL, k1, k2]



/-- Recording successes emits no event. -/
theorem markSuccess_events (f l : String) (o : Op → Option String) :
    ∀ (ops : List Op) (st : BState), (markSuccess f l o ops st).events = st.events := by
  intro ops
  induction ops with
  | nil => intro st; rfl
  | cons op rest ih => intro st; simp [markSuccess, List.foldl] at ih ⊢; rw [ih]

/-- Recording failures emits no event. -/
theorem markFailed_events (f l : String) (o : Op → Option String) :
    ∀ (ops : List Op) (st : BState), (markFailed f l o ops st).events = st.events := by
  intro ops
  induction ops with
  | nil => intro st; rfl
  | cons op rest ih => intro st; simp [markFailed, List.foldl] at ih ⊢; rw [ih]

/-- Any modification contributed by one operation is the text fallback for
an apply/update with a value, or an unset marker for an unset. -/
theorem applyOpMods_shape (getLabel : String → Except String (List LabelField))
    (label_id : String) (op : Op) (m : FieldMod)
    (hm : m ∈ applyOpMods getLabel label_id op) :
    (∃ fid v, op.field_id = Option.some fid ∧ op.value = Option.some v
      ∧ (op.operation = Option.some "apply" ∨ op.operation = Option.some "update")
      ∧ m = FieldMod.setText fid (pyStr v))
    ∨ (∃ fid, op.field_id = Option.some fid ∧ op.operation = Option.some "unset"
      ∧ m = FieldMod.unsetValues fid) := by
  unfold applyOpMods at hm
  rcases hof : op.field_id with _ | fid <;> simp only [hof] at hm
  · simp at hm
  by_cases hfe : fid = ""
  · simp [hfe] at hm
  rw [if_neg hfe] at hm
  by_cases hop : op.operation = Option.some "apply" ∨ op.operation = Option.some "update"
  · rw [if_pos hop] at hm
    rcases hv : op.value with _ | v <;> simp only [hv] at hm
    · simp at hm
    rcases hg : getLabel label_id with e | fields <;> simp only [hg] at hm
    · simp only [List.mem_singleton] at hm
      exact Or.inl ⟨fid, v, rfl, rfl, hop, hm⟩
    rcases hft : findFieldType fields fid with _ | t <;> simp only [hft] at hm
    · simp at hm
    by_cases hte : t = ""
    · simp [hte] at hm
    rw [if_neg hte] at hm
    simp only [List.mem_singleton] at hm
    exact Or.inl ⟨fid, v, rfl, rfl, hop, hm⟩
  · rw [if_neg hop] at hm
    by_cases hu : op.operation = Option.some "unset"
    · rw [if_pos hu] at hm
      simp only [List.mem_singleton] at hm
      exact Or.inr ⟨fid, rfl, hu, hm⟩
    · simp [hu] at hm

/-- Any modification in a collected list arises from one of the bucket
operations, as its text fallback or unset marker. -/
theorem collect_field_modifications_shape
    (getLabel : String → Except String (List LabelField)) (label_id : String) :
    ∀ (ops : List Op) (m : FieldMod),
      m ∈ collect_field_modifications getLabel label_id ops →
      (∃ op ∈ ops, ∃ fid v, op.field_id = Option.some fid ∧ op.value = Option.some v
        ∧ (op.operation = Option.some "apply" ∨ op.operation = Option.some "update")
        ∧ m = FieldMod.setText fid (pyStr v))
      ∨ (∃ op ∈ ops, ∃ fid, op.field_id = Option.some fid
        ∧ op.operation = Option.some "unset" ∧ m = FieldMod.unsetValues fid) := by
  intro ops
  induction ops with
  | nil => intro m hm; simp [collect_field_modifications] at hm
  | cons op rest ih =>
    intro m hm
    simp only [collect_field_modifications, List.mem_append] at hm
    rcases hm with h | h
    · rcases applyOpMods_shape getLabel label_id op m h with ⟨fid, v, a, b, c, d⟩ | ⟨fid, a, b, c⟩
      · exact Or.inl ⟨op, List.mem_cons_self op rest, fid, v, a, b, c, d⟩
      · exact Or.inr ⟨op, List.mem_cons_self op rest, fid, a, b, c⟩
    · rcases ih m h with ⟨op', hop', rest'⟩ | ⟨op', hop', rest'⟩
      · exact Or.inl ⟨op', List.mem_cons_of_mem op hop', rest'⟩
      · exact Or.inr ⟨op', List.mem_cons_of_mem op hop', rest'⟩



/-- The events of one label step: at most one field-modification call
(when the apply bucket yields modifications) followed by at most one
remove call (when the remove bucket is nonempty). -/
theorem processLabel_events (getLabel : String → Except String (List LabelField))
    (svcFields : String → String → List FieldMod → Bool)
    (svcRemove : String → String → Bool)
    (fid lid : String) (lo : LabelOps) (st : BState) :
    (processLabel getLabel svcFields svcRemove fid lid lo st).events
      = st.events
        ++ (if lo.applyOps.isEmpty then []
            else if (collect_field_modifications getLabel lid lo.applyOps).isEmpty then []
            else [BEvent.callFields fid lid
                    (collect_field_modifications getLabel lid lo.applyOps)])
        ++ (if lo.removeOps.isEmpty then [] else [BEvent.callRemove fid lid]) := by
  by_cases ha : lo.applyOps.isEmpty <;>
    by_cases hm : (collect_field_modifications getLabel lid lo.applyOps).isEmpty <;>
      by_cases hr : lo.removeOps.isEmpty <;>
        simp [processLabel, ha, hm, hr, bemit, markSuccess_events, markFailed_events,
          apply_ite BState.events]

/-- One label step preserves the only-text-modifications trace property. -/
theorem onlyText_processLabel (getLabel : String → Except String (List LabelField))
    (svcFields : String → String → List FieldMod → Bool)
    (svcRemove : String → String → Bool) (fid lid : String) (lo : LabelOps) (st : BState)
    (h : ∀ e ∈ st.events, onlyTextMods e) :
    ∀ e ∈ (processLabel getLabel svcFields svcRemove fid lid lo st).events, onlyTextMods e := by
  intro e he
  rw [processLabel_events] at he
  simp only [List.append_assoc, List.mem_append] at he
  rcases he with he | he | he
  · exact h e he
  · split_ifs at he with h1 h2
    · simp at he
    · simp at he
    · simp only [List.mem_singleton] at he
      subst he
      intro fid' lid' mods' heq
      cases heq
      intro m hm
      rcases collect_field_modifications_shape getLabel lid lo.applyOps m hm with
        ⟨_, _, f, v, _, _, _, hmeq⟩ | ⟨_, _, f, _, _, hmeq⟩
      · exact Or.inl ⟨f, pyStr v, hmeq⟩
      · exact Or.inr ⟨f, hmeq⟩
  · split_ifs at he with h1
    · simp at he
    · simp only [List.mem_singleton] at he
      subst he
      intro fid' lid' mods' heq
      cases heq

/-- The bucket fold preserves the only-text-modifications trace property. -/
theorem onlyText_buckets (getLabel : String → Except String (List LabelField))
    (svcFields : String → String → List FieldMod → Bool)
    (svcRemove : String → String → Bool) (fid : String) :
    ∀ (bs : List (String × LabelOps)) (st : BState),
      (∀ e ∈ st.events, onlyTextMods e) →
      ∀ e ∈ (bs.foldl (fun st p =>
          processLabel getLabel svcFields svcRemove fid p.1 p.2 st) st).events,
        onlyTextMods e := by
  intro bs
  induction bs with
  | nil => intro st h; exact h
  | cons b rest ih =>
    intro st h
    exact ih _ (onlyText_processLabel getLabel svcFields svcRemove fid b.1 b.2 st h)

/-- A progress event trivially satisfies the call property. -/
theorem onlyTextMods_progress (c t : Nat) (msg : Option String) :
    onlyTextMods (BEvent.progress c t msg) := by
  intro fid lid mods heq
  cases heq

/-- A sleep event trivially satisfies the call property. -/
theorem onlyTextMods_sleep (q : ℚ) : onlyTextMods (BEvent.sleep q) := by
  intro fid lid mods heq
  cases heq

/-- Emitting a good event preserves the trace property. -/
theorem onlyText_bemit (e' : BEvent) (st : BState) (h : ∀ e ∈ st.events, onlyTextMods e)
    (h' : onlyTextMods e') : ∀ e ∈ (bemit e' st).events, onlyTextMods e := by
  intro e he
  simp only [bemit, List.mem_append, List.mem_singleton] at he
  rcases he with he | he
  · exact h e he
  · subst he; exact h'

/-- One file step preserves the only-text-modifications trace property. -/
theorem onlyText_processFile (getLabel : String → Except String (List LabelField))
    (svcFields : String → String → List FieldMod → Bool)
    (svcRemove : String → String → Bool)
    (total_ops total_groups group_count : Nat) (fid : String) (fops : List Op) (st : BState)
    (h : ∀ e ∈ st.events, onlyTextMods e) :
    ∀ e ∈ (processFile getLabel svcFields svcRemove total_ops total_groups group_count
        fid fops st).events, onlyTextMods e := by
  unfold processFile
  refine onlyText_bemit _ _ ?_ (onlyTextMods_progress _ _ _)
  refine onlyText_buckets getLabel svcFields svcRemove fid _ _ ?_
  exact onlyText_bemit _ _ h (onlyTextMods_progress _ _ _)

/-- The per-batch file fold preserves the trace property. -/
theorem onlyText_filesFold (getLabel : String → Except String (List LabelField))
    (svcFields : String → String → List FieldMod → Bool)
    (svcRemove : String → String → Bool) (total_ops total_groups : Nat) :
    ∀ (c : List (String × List Op)) (p : BState × Nat),
      (∀ e ∈ p.1.events, onlyTextMods e) →
      ∀ e ∈ (c.foldl (fun (p : BState × Nat) fg =>
          (processFile getLabel svcFields svcRemove total_ops total_groups (p.2 + 1)
            fg.1 fg.2 p.1, p.2 + 1)) p).1.events, onlyTextMods e := by
  intro c
  induction c with
  | nil => intro p h; exact h
  | cons fg rest ih =>
    intro p h
    exact ih _ (onlyText_processFile getLabel svcFields svcRemove total_ops total_groups
      (p.2 + 1) fg.1 fg.2 p.1 h)

/-- The batch loop preserves the only-text-modifications trace property. -/
theorem onlyText_runChunks (getLabel : String → Except String (List LabelField))
    (svcFields : String → String → List FieldMod → Bool)
    (svcRemove : String → String → Bool) (total_ops total_groups : Nat) :
    ∀ (cs : List (List (String × List Op))) (gc : Nat) (st : BState),
      (∀ e ∈ st.events, onlyTextMods e) →
      ∀ e ∈ (runChunks getLabel svcFields svcRemove total_ops total_groups cs gc st).events,
        onlyTextMods e := by
  intro cs
  induction cs with
  | nil => intro gc st h; exact h
  | cons c rest ih =>
    intro gc st h
    simp only [runChunks]
    apply ih
    have hfold := onlyText_filesFold getLabel svcFields svcRemove total_ops total_groups
      c (st, gc) h
    split
    · exact hfold
    · exact onlyText_bemit _ _ hfold (onlyTextMods_sleep _)



/-- C4: `self._create_field_modification` raises `AttributeError` (the
function is module-level, not a method), so every field modification
collected for an apply/update operation with a non-None value is the text
fallback `setTextValues [str(value)]`, regardless of the field's declared
type; consequently every field-modification call in every
`batch_update_files` run carries only text-set and unset modifications.
The last conjunct records what the orphaned `_create_field_modification`
would have produced for a SELECTION field, which never reaches the wire. -/
theorem C4_text_fallback_always :
    (∀ (getLabel : String → Except String (List LabelField)) (label_id : String)
        (ops : List Op) (m : FieldMod),
      m ∈ collect_field_modifications getLabel label_id ops →
      (∃ op ∈ ops, ∃ fid v, op.field_id = Option.some fid ∧ op.value = Option.some v
        ∧ (op.operation = Option.some "apply" ∨ op.operation = Option.some "update")
        ∧ m = FieldMod.setText fid (pyStr v))
      ∨ (∃ op ∈ ops, ∃ fid, op.field_id = Option.some fid
        ∧ op.operation = Option.some "unset" ∧ m = FieldMod.unsetValues fid))
  ∧ (∀ (extract : String → String) (getLabel : String → Except String (List LabelField))
        (svcFields : String → String → List FieldMod → Bool)
        (svcRemove : String → String → Bool) (operations : List Op) (batch_size : Nat)
        (e : BEvent),
      e ∈ (batch_update_files extract getLabel svcFields svcRemove operations
            batch_size).events →
      ∀ (fileId labelId : String) (mods : List FieldMod),
        e = BEvent.callFields fileId labelId mods →
        ∀ m ∈ mods, (∃ f s, m = FieldMod.setText f s) ∨ (∃ f, m = FieldMod.unsetValues f))
  ∧ _create_field_modification "f1" "SELECTION" (.str "x")
      = .ok (.setSelection "f1" "x") := by
  refine ⟨fun g l => collect_field_modifications_shape g l, ?_, rfl⟩
  intro extract getLabel svcF svcR operations bs e he
  have h0 : ∀ e ∈ ({ total := operations.length, successful := 0, failed := 0,
                     records := [], errors := 0, processed := 0, events := [] } : BState).events,
      onlyTextMods e := by
    intro e' he'
    simp at he'
  have hrun := onlyText_runChunks getLabel svcF svcR operations.length
    (group_by_file extract operations).length
    (chunks bs (group_by_file extract operations)) 0 _ h0
  have hall : ∀ e ∈ (batch_update_files extract getLabel svcF svcR operations bs).events,
      onlyTextMods e := by
    unfold batch_update_files
    exact onlyText_bemit _ _ hrun (onlyTextMods_progress _ _ _)
  exact hall e he

/-- Witness for C4: a concrete run whose catalog declares a SELECTION
field still submits a text modification. -/
theorem C4_witness :
    (BEvent.callFields "F1" "L1" [FieldMod.setText "f1" "x"]
      ∈ (batch_update_files id (fun _ => Except.ok [⟨"f1", Option.some "SELECTION"⟩])
          (fun _ _ _ => true) (fun _ _ => true)
          [⟨Option.some "apply", Option.some "F1", Option.some "L1", Option.some "f1",
            Option.some (.str "x")⟩] 10).events)
  ∧ (∀ m ∈ [FieldMod.setText "f1" "x"],
      (∃ f s, m = FieldMod.setText f s) ∨ (∃ f, m = FieldMod.unsetValues f)) :=
  ⟨by decide,
   C4_text_fallback_always.2.1 id (fun _ => Except.ok [⟨"f1", Option.some "SELECTION"⟩])
     (fun _ _ _ => true) (fun _ _ => true)
     [⟨Option.some "apply", Option.some "F1", Option.some "L1", Option.some "f1",
       Option.some (.str "x")⟩] 10
     (BEvent.callFields "F1" "L1" [FieldMod.setText "f1" "x"]) (by decide)
     "F1" "L1" [FieldMod.setText "f1" "x"] rfl⟩



/-- C6: two operations sharing file id and label id but with different
field ids fall into exactly one (file, label) group whose ordered
modification list has one modification per operation, and the group is
submitted in a single field-modification remote call, not two. -/
theorem C6_single_group_single_call
    (extract : String → String) (getLabel : String → Except String (List LabelField))
    (svcFields : String → String → List FieldMod → Bool) (svcRemove : String → String → Bool)
    (F L f1 f2 : String) (v1 v2 : PyVal) (batch_size : Nat)
    (hF : F ≠ "") (hL : L ≠ "") (hbs : 0 < batch_size) (_hf : f1 ≠ f2)
    (h1 : applyOpMods getLabel L ⟨Option.some "apply", Option.some F, Option.some L,
        Option.some f1, Option.some v1⟩ = [FieldMod.setText f1 (pyStr v1)])
    (h2 : applyOpMods getLabel L ⟨Option.some "apply", Option.some F, Option.some L,
        Option.some f2, Option.some v2⟩ = [FieldMod.setText f2 (pyStr v2)]) :
    group_by_file extract
        [⟨Option.some "apply", Option.some F, Option.some L, Option.some f1, Option.some v1⟩,
         ⟨Option.some "apply", Option.some F, Option.some L, Option.some f2, Option.some v2⟩]
      = [(extract F,
          [⟨Option.some "apply", Option.some F, Option.some L, Option.some f1, Option.some v1⟩,
           ⟨Option.some "apply", Option.some F, Option.some L, Option.some f2, Option.some v2⟩])]
  ∧ group_by_label
        [⟨Option.some "apply", Option.some F, Option.some L, Option.some f1, Option.some v1⟩,
         ⟨Option.some "apply", Option.some F, Option.some L, Option.some f2, Option.some v2⟩]
      = [(L, ⟨[⟨Option.some "apply", Option.some F, Option.some L, Option.some f1,
                Option.some v1⟩,
               ⟨Option.some "apply", Option.some F, Option.some L, Option.some f2,
                Option.some v2⟩], []⟩)]
  ∧ collect_field_modifications getLabel L
        [⟨Option.some "apply", Option.some F, Option.some L, Option.some f1, Option.some v1⟩,
         ⟨Option.some "apply", Option.some F, Option.some L, Option.some f2, Option.some v2⟩]
      = [FieldMod.setText f1 (pyStr v1), FieldMod.setText f2 (pyStr v2)]
  ∧ serviceCalls (batch_update_files extract getLabel svcFields svcRemove
        [⟨Option.some "apply", Option.some F, Option.some L, Option.some f1, Option.some v1⟩,
         ⟨Option.some "apply", Option.some F, Option.some L, Option.some f2, Option.some v2⟩]
        batch_size).events
      = [BEvent.callFields (extract F) L
          [FieldMod.setText f1 (pyStr v1), FieldMod.setText f2 (pyStr v2)]] := by
  refine ⟨group_by_file_pair extract F hF _ _ rfl rfl,
    group_by_label_pair L hL
      ⟨Option.some "apply", Option.some F, Option.some L, Option.some f1, Option.some v1⟩
      ⟨Option.some "apply", Option.some F, Option.some L, Option.some f2, Option.some v2⟩
      rfl rfl rfl rfl,
    by simp [collect_field_modifications, h1, h2], ?_⟩
  simp only [batch_update_files]
  rw [group_by_file_pair extract F hF _ _ rfl rfl, chunks_single _ hbs]
  simp only [runChunks, List.foldl, List.isEmpty_nil]
  simp only [processFile]
  rw [group_by_label_pair L hL
    ⟨Option.some "apply", Option.some F, Option.some L, Option.some f1, Option.some v1⟩
    ⟨Option.some "apply", Option.some F, Option.some L, Option.some f2, Option.some v2⟩
    rfl rfl rfl rfl]
  simp only [List.foldl, processLabel]
  simp only [collect_field_modifications, h1, h2, List.append_nil, List.cons_append,
    List.nil_append, List.isEmpty_cons, List.isEmpty_nil]
  cases hsvc : svcFields (extract F) L
      [FieldMod.setText f1 (pyStr v1), FieldMod.setText f2 (pyStr v2)] <;>
    simp [hsvc, markSuccess_events, markFailed_events, bemit, serviceCalls, List.filter]

/-- Witness for C6 at concrete ids with an unavailable label catalog (the
text fallback path). -/
theorem C6_witness :
    (("F1" : String) ≠ "" ∧ ("L1" : String) ≠ "" ∧ 0 < 50 ∧ ("f1" : String) ≠ "f2"
      ∧ applyOpMods (fun _ => Except.error "down") "L1"
          ⟨Option.some "apply", Option.some "F1", Option.some "L1", Option.some "f1",
           Option.some (.str "x")⟩ = [FieldMod.setText "f1" "x"]
      ∧ applyOpMods (fun _ => Except.error "down") "L1"
          ⟨Option.some "apply", Option.some "F1", Option.some "L1", Option.some "f2",
           Option.some (.str "y")⟩ = [FieldMod.setText "f2" "y"])
  ∧ serviceCalls (batch_update_files id (fun _ => Except.error "down")
        (fun _ _ _ => true) (fun _ _ => true)
        [⟨Option.some "apply", Option.some "F1", Option.some "L1", Option.some "f1",
          Option.some (.str "x")⟩,
         ⟨Option.some "apply", Option.some "F1", Option.some "L1", Option.some "f2",
          Option.some (.str "y")⟩] 50).events
      = [BEvent.callFields "F1" "L1"
          [FieldMod.setText "f1" "x", FieldMod.setText "f2" "y"]] :=
  ⟨⟨by decide, by decide, by decide, by decide, rfl, rfl⟩,
   (C6_single_group_single_call id (fun _ => Except.error "down")
      (fun _ _ _ => true) (fun _ _ => true) "F1" "L1" "f1" "f2" (.str "x") (.str "y") 50
      (by decide) (by decide) (by decide) (by decide) rfl rfl).2.2.2⟩



/-- C7: a (file, label) group holding both an apply-like and a remove
operation issues exactly two separate remote calls — one carrying the field
modifications, a distinct one carrying the label removal — in that order,
never combined. -/
theorem C7_remove_separate_call
    (extract : String → String) (getLabel : String → Except String (List LabelField))
    (svcFields : String → String → List FieldMod → Bool) (svcRemove : String → String → Bool)
    (F L f : String) (v : PyVal) (batch_size : Nat)
    (hF : F ≠ "") (hL : L ≠ "") (hbs : 0 < batch_size)
    (h1 : applyOpMods getLabel L ⟨Option.some "apply", Option.some F, Option.some L,
        Option.some f, Option.some v⟩ = [FieldMod.setText f (pyStr v)]) :
    group_by_label
        [⟨Option.some "remove", Option.some F, Option.some L, Option.none, Option.none⟩,
         ⟨Option.some "apply", Option.some F, Option.some L, Option.some f, Option.some v⟩]
      = [(L, ⟨[⟨Option.some "apply", Option.some F, Option.some L, Option.some f,
                Option.some v⟩],
              [⟨Option.some "remove", Option.some F, Option.some L, Option.none,
                Option.none⟩]⟩)]
  ∧ serviceCalls (batch_update_files extract getLabel svcFields svcRemove
        [⟨Option.some "remove", Option.some F, Option.some L, Option.none, Option.none⟩,
         ⟨Option.some "apply", Option.some F, Option.some L, Option.some f, Option.some v⟩]
        batch_size).events
      = [BEvent.callFields (extract F) L [FieldMod.setText f (pyStr v)],
         BEvent.callRemove (extract F) L] := by
  refine ⟨group_by_label_remove_apply L hL
    ⟨Option.some "remove", Option.some F, Option.some L, Option.none, Option.none⟩
    ⟨Option.some "apply", Option.some F, Option.some L, Option.some f, Option.some v⟩
    rfl rfl rfl rfl, ?_⟩
  simp only [batch_update_files]
  rw [group_by_file_pair extract F hF _ _ rfl rfl, chunks_single _ hbs]
  simp only [runChunks, List.foldl, List.isEmpty_nil]
  simp only [processFile]
  rw [group_by_label_remove_apply L hL
    ⟨Option.some "remove", Option.some F, Option.some L, Option.none, Option.none⟩
    ⟨Option.some "apply", Option.some F, Option.some L, Option.some f, Option.some v⟩
    rfl rfl rfl rfl]
  simp only [List.foldl, processLabel]
  simp only [collect_field_modifications, h1, List.append_nil, List.cons_append,
    List.nil_append, List.isEmpty_cons, List.isEmpty_nil]
  cases hsvc : svcFields (extract F) L [FieldMod.setText f (pyStr v)] <;>
    cases hsvr : svcRemove (extract F) L <;>
      simp [hsvc, hsvr, markSuccess_events, markFailed_events, markSuccess, markFailed,
        bemit, serviceCalls, List.filter]

/-- Witness for C7 at concrete ids. -/
theorem C7_witness :
    (("F1" : String) ≠ "" ∧ ("L1" : String) ≠ "" ∧ 0 < 50
      ∧ applyOpMods (fun _ => Except.error "down") "L1"
          ⟨Option.some "apply", Option.some "F1", Option.some "L1", Option.some "f1",
           Option.some (.str "x")⟩ = [FieldMod.setText "f1" "x"])
  ∧ serviceCalls (batch_update_files id (fun _ => Except.error "down")
        (fun _ _ _ => true) (fun _ _ => true)
        [⟨Option.some "remove", Option.some "F1", Option.some "L1", Option.none, Option.none⟩,
         ⟨Option.some "apply", Option.some "F1", Option.some "L1", Option.some "f1",
          Option.some (.str "x")⟩] 50).events
      = [BEvent.callFields "F1" "L1" [FieldMod.setText "f1" "x"],
         BEvent.callRemove "F1" "L1"] :=
  ⟨⟨by decide, by decide, by decide, rfl⟩,
   (C7_remove_separate_call id (fun _ => Except.error "down")
      (fun _ _ _ => true) (fun _ _ => true) "F1" "L1" "f1" (.str "x") 50
      (by decide) (by decide) (by decide) rfl).2⟩



/-- Recording successes adds one success per operation. -/
theorem markSuccess_successful (f l : String) (o : Op → Option String) :
    ∀ (ops : List Op) (st : BState),
      (markSuccess f l o ops st).successful = st.successful + ops.length := by
  intro ops
  induction ops with
  | nil => intro st; simp [markSuccess]
  | cons op rest ih =>
    intro st
    simp only [markSuccess, List.foldl] at ih ⊢
    rw [ih]
    simp
    omega

/-- Recording successes leaves `failed` unchanged. -/
theorem markSuccess_failed (f l : String) (o : Op → Option String) :
    ∀ (ops : List Op) (st : BState), (markSuccess f l o ops st).failed = st.failed := by
  intro ops
  induction ops with
  | nil => intro st; simp [markSuccess]
  | cons op rest ih =>
    intro st
    simp only [markSuccess, List.foldl] at ih ⊢
    rw [ih]

/-- Recording successes appends one record per operation. -/
theorem markSuccess_rec (f l : String) (o : Op → Option String) :
    ∀ (ops : List Op) (st : BState),
      (markSuccess f l o ops st).records.length = st.records.length + ops.length := by
  intro ops
  induction ops with
  | nil => intro st; simp [markSuccess]
  | cons op rest ih =>
    intro st
    simp only [markSuccess, List.foldl] at ih ⊢
    rw [ih]
    simp
    omega

/-- Recording successes leaves `total` unchanged. -/
theorem markSuccess_total (f l : String) (o : Op → Option String) :
    ∀ (ops : List Op) (st : BState), (markSuccess f l o ops st).total = st.total := by
  intro ops
  induction ops with
  | nil => intro st; simp [markSuccess]
  | cons op rest ih =>
    intro st
    simp only [markSuccess, List.foldl] at ih ⊢
    rw [ih]

/-- Recording failures leaves `successful` unchanged. -/
theorem markFailed_successful (f l : String) (o : Op → Option String) :
    ∀ (ops : List Op) (st : BState),
      (markFailed f l o ops st).successful = st.successful := by
  intro ops
  induction ops with
  | nil => intro st; simp [markFailed]
  | cons op rest ih =>
    intro st
    simp only [markFailed, List.foldl] at ih ⊢
    rw [ih]

/-- Recording failures adds one failure per operation. -/
theorem markFailed_failed (f l : String) (o : Op → Option String) :
    ∀ (ops : List Op) (st : BState),
      (markFailed f l o ops st).failed = st.failed + ops.length := by
  intro ops
  induction ops with
  | nil => intro st; simp [markFailed]
  | cons op rest ih =>
    intro st
    simp only [markFailed, List.foldl] at ih ⊢
    rw [ih]
    simp
    omega

/-- Recording failures appends one record per operation. -/
theorem markFailed_rec (f l : String) (o : Op → Option String) :
    ∀ (ops : List Op) (st : BState),
      (markFailed f l o ops st).records.length = st.records.length + ops.length := by
  intro ops
  induction ops with
  | nil => intro st; simp [markFailed]
  | cons op rest ih =>
    intro st
    simp only [markFailed, List.foldl] at ih ⊢
    rw [ih]
    simp
    omega

/-- Recording failures leaves `total` unchanged. -/
theorem markFailed_total (f l : String) (o : Op → Option String) :
    ∀ (ops : List Op) (st : BState), (markFailed f l o ops st).total = st.total := by
  intro ops
  induction ops with
  | nil => intro st; simp [markFailed]
  | cons op rest ih =>
    intro st
    simp only [markFailed, List.foldl] at ih ⊢
    rw [ih]

/-- One label step adds `bucketRecorded` to both the success/failure sum
and the record count, and preserves `total`. -/
theorem processLabel_counts (getLabel : String → Except String (List LabelField))
    (svcFields : String → String → List FieldMod → Bool)
    (svcRemove : String → String → Bool) (fid lid : String) (lo : LabelOps) (st : BState) :
    (processLabel getLabel svcFields svcRemove fid lid lo st).successful
        + (processLabel getLabel svcFields svcRemove fid lid lo st).failed
      = st.successful + st.failed + bucketRecorded getLabel lid lo
  ∧ (processLabel getLabel svcFields svcRemove fid lid lo st).records.length
      = st.records.length + bucketRecorded getLabel lid lo
  ∧ (processLabel getLabel svcFields svcRemove fid lid lo st).total = st.total := by
  refine ⟨?_, ?_, ?_⟩ <;>
    (by_cases ha : lo.applyOps.isEmpty <;>
      by_cases hm : (collect_field_modifications getLabel lid lo.applyOps).isEmpty <;>
        by_cases hr : lo.removeOps.isEmpty <;>
          cases hsf : svcFields fid lid (collect_field_modifications getLabel lid lo.applyOps) <;>
            cases hsr : svcRemove fid lid <;>
              simp_all [processLabel, bucketRecorded, bemit,
                markSuccess_successful, markSuccess_failed, markSuccess_rec, markSuccess_total,
                markFailed_successful, markFailed_failed, markFailed_rec, markFailed_total,
                List.isEmpty_iff] <;>
                omega)



/-- The bucket fold adds the per-bucket recorded counts. -/
theorem bucketsFold_counts (getLabel : String → Except String (List LabelField))
    (svcFields : String → String → List FieldMod → Bool)
    (svcRemove : String → String → Bool) (fid : String) :
    ∀ (bs : List (String × LabelOps)) (st : BState),
      ((bs.foldl (fun st p => processLabel getLabel svcFields svcRemove fid p.1 p.2 st)
          st).successful
        + (bs.foldl (fun st p => processLabel getLabel svcFields svcRemove fid p.1 p.2 st)
          st).failed
        = st.successful + st.failed + (bs.map (fun p => bucketRecorded getLabel p.1 p.2)).sum)
      ∧ (bs.foldl (fun st p => processLabel getLabel svcFields svcRemove fid p.1 p.2 st)
          st).records.length
        = st.records.length + (bs.map (fun p => bucketRecorded getLabel p.1 p.2)).sum
      ∧ (bs.foldl (fun st p => processLabel getLabel svcFields svcRemove fid p.1 p.2 st)
          st).total = st.total := by
  intro bs
  induction bs with
  | nil => intro st; simp
  | cons b rest ih =>
    intro st
    obtain ⟨p1, p2, p3⟩ := processLabel_counts getLabel svcFields svcRemove fid b.1 b.2 st
    obtain ⟨q1, q2, q3⟩ := ih (processLabel getLabel svcFields svcRemove fid b.1 b.2 st)
    simp only [List.foldl, List.map, List.sum_cons]
    refine ⟨by omega, by omega, by rw [q3, p3]⟩

/-- One file step adds `fileRecorded` to the counts. -/
theorem processFile_counts (getLabel : String → Except String (List LabelField))
    (svcFields : String → String → List FieldMod → Bool)
    (svcRemove : String → String → Bool)
    (total_ops total_groups group_count : Nat) (fid : String) (fops : List Op) (st : BState) :
    ((processFile getLabel svcFields svcRemove total_ops total_groups group_count
        fid fops st).successful
      + (processFile getLabel svcFields svcRemove total_ops total_groups group_count
        fid fops st).failed
      = st.successful + st.failed + fileRecorded getLabel fops)
    ∧ (processFile getLabel svcFields svcRemove total_ops total_groups group_count
        fid fops st).records.length = st.records.length + fileRecorded getLabel fops
    ∧ (processFile getLabel svcFields svcRemove total_ops total_groups group_count
        fid fops st).total = st.total := by
  unfold processFile fileRecorded
  obtain ⟨q1, q2, q3⟩ := bucketsFold_counts getLabel svcFields svcRemove fid
    (group_by_label fops) (bemit (.progress st.processed total_ops
      (Option.some ("Processing file " ++ toString group_count ++ "/"
        ++ toString total_groups))) st)
  simp [bemit] at q1 q2 q3 ⊢
  exact ⟨by omega, by omega, by rw [q3]⟩

/-- The per-batch file fold adds the per-file recorded counts. -/
theorem filesFold_counts (getLabel : String → Except String (List LabelField))
    (svcFields : String → String → List FieldMod → Bool)
    (svcRemove : String → String → Bool) (total_ops total_groups : Nat) :
    ∀ (c : List (String × List Op)) (p : BState × Nat),
      (((c.foldl (fun (p : BState × Nat) fg =>
          (processFile getLabel svcFields svcRemove total_ops total_groups (p.2 + 1)
            fg.1 fg.2 p.1, p.2 + 1)) p).1).successful
        + ((c.foldl (fun (p : BState × Nat) fg =>
          (processFile getLabel svcFields svcRemove total_ops total_groups (p.2 + 1)
            fg.1 fg.2 p.1, p.2 + 1)) p).1).failed
        = p.1.successful + p.1.failed + (c.map (fun fg => fileRecorded getLabel fg.2)).sum)
      ∧ ((c.foldl (fun (p : BState × Nat) fg =>
          (processFile getLabel svcFields svcRemove total_ops total_groups (p.2 + 1)
            fg.1 fg.2 p.1, p.2 + 1)) p).1).records.length
        = p.1.records.length + (c.map (fun fg => fileRecorded getLabel fg.2)).sum
      ∧ ((c.foldl (fun (p : BState × Nat) fg =>
          (processFile getLabel svcFields svcRemove total_ops total_groups (p.2 + 1)
            fg.1 fg.2 p.1, p.2 + 1)) p).1).total = p.1.total := by
  intro c
  induction c with
  | nil => intro p; simp
  | cons fg rest ih =>
    intro p
    obtain ⟨p1, p2, p3⟩ := processFile_counts getLabel svcFields svcRemove total_ops
      total_groups (p.2 + 1) fg.1 fg.2 p.1
    obtain ⟨q1, q2, q3⟩ := ih (processFile getLabel svcFields svcRemove total_ops total_groups
      (p.2 + 1) fg.1 fg.2 p.1, p.2 + 1)
    simp only [List.foldl, List.map, List.sum_cons] at q1 q2 q3 ⊢
    refine ⟨by omega, by omega, by rw [q3, p3]⟩

/-- The batch loop adds the recorded counts of all its chunks. -/
theorem runChunks_counts (getLabel : String → Except String (List LabelField))
    (svcFields : String → String → List FieldMod → Bool)
    (svcRemove : String → String → Bool) (total_ops total_groups : Nat) :
    ∀ (cs : List (List (String × List Op))) (gc : Nat) (st : BState),
      ((runChunks getLabel svcFields svcRemove total_ops total_groups cs gc st).successful
        + (runChunks getLabel svcFields svcRemove total_ops total_groups cs gc st).failed
        = st.successful + st.failed
          + (cs.map (fun c => (c.map (fun fg => fileRecorded getLabel fg.2)).sum)).sum)
      ∧ (runChunks getLabel svcFields svcRemove total_ops total_groups cs gc st).records.length
        = st.records.length
          + (cs.map (fun c => (c.map (fun fg => fileRecorded getLabel fg.2)).sum)).sum
      ∧ (runChunks getLabel svcFields svcRemove total_ops total_groups cs gc st).total
        = st.total := by
  intro cs
  induction cs with
  | nil => intro gc st; simp [runChunks]
  | cons c rest ih =>
    intro gc st
    simp only [runChunks]
    obtain ⟨p1, p2, p3⟩ := filesFold_counts getLabel svcFields svcRemove total_ops
      total_groups c (st, gc)
    generalize hP : (c.foldl (fun (p : BState × Nat) fg =>
        (processFile getLabel svcFields svcRemove total_ops total_groups (p.2 + 1)
          fg.1 fg.2 p.1, p.2 + 1)) (st, gc)) = P at p1 p2 p3 ⊢
    dsimp only at p1 p2 p3
    simp only [List.map, List.sum_cons]
    rcases hre : rest.isEmpty with _ | _
    · simp only [hre, Bool.false_eq_true, if_false]
      obtain ⟨q1, q2, q3⟩ := ih P.2 (bemit (BEvent.sleep 1) P.1)
      simp only [bemit] at q1 q2 q3 ⊢
      exact ⟨by omega, by omega, by rw [q3]; exact p3⟩
    · simp only [hre, if_true]
      obtain ⟨q1, q2, q3⟩ := ih P.2 P.1
      exact ⟨by omega, by omega, by rw [q3]; exact p3⟩



/-- With enough fuel the chunks concatenate back to the original list. -/
theorem chunksAux_flatten (n : Nat) (hn : 0 < n) :
    ∀ (fuel : Nat) (l : List (String × List Op)), l.length ≤ fuel →
      (chunksAux n fuel l).flatten = l := by
  intro fuel
  induction fuel with
  | zero =>
    intro l hl
    have : l = [] := List.length_eq_zero.mp (Nat.le_zero.mp hl)
    subst this
    simp [chunksAux]
  | succ fuel ih =>
    intro l hl
    cases l with
    | nil => simp [chunksAux]
    | cons x xs =>
      have hn0 : n ≠ 0 := Nat.pos_iff_ne_zero.mp hn
      simp only [chunksAux, hn0, if_false]
      rw [List.flatten_cons, ih _ (by simp [List.length_drop] at hl ⊢; omega),
        List.take_append_drop]

/-- The batches partition the file groups. -/
theorem chunks_flatten (n : Nat) (hn : 0 < n) (l : List (String × List Op)) :
    (chunks n l).flatten = l :=
  chunksAux_flatten n hn l.length l le_rfl

/-- Summing per-chunk sums equals summing over the concatenation. -/
theorem sum_map_sum_flatten {α : Type} (f : α → Nat) :
    ∀ (L : List (List α)),
      (L.map (fun c => (c.map f).sum)).sum = ((L.flatten).map f).sum := by
  intro L
  induction L with
  | nil => simp
  | cons c rest ih => simp [List.map_append, List.sum_append, ih]

/-- A sum of pointwise sums splits. -/
theorem sum_map_add {α : Type} (f g : α → Nat) :
    ∀ (l : List α), (l.map (fun x => f x + g x)).sum = (l.map f).sum + (l.map g).sum := by
  intro l
  induction l with
  | nil => simp
  | cons x xs ih => simp [ih]; omega

/-- Recorded plus dropped operations of one bucket account for the whole
bucket. -/
theorem bucketRec_add_dropped (getLabel : String → Except String (List LabelField))
    (lid : String) (lo : LabelOps) :
    bucketRecorded getLabel lid lo + bucketDropped getLabel lid lo
      = lo.applyOps.length + lo.removeOps.length := by
  unfold bucketRecorded bucketDropped
  split_ifs <;> omega

/-- A filter and its complement partition a list. -/
theorem filter_length_split {α : Type} (p : α → Bool) :
    ∀ (l : List α), (l.filter p).length + (l.filter (fun x => !p x)).length = l.length := by
  intro l
  induction l with
  | nil => simp
  | cons x xs ih =>
    cases hx : p x <;> simp [List.filter, hx] <;> omega

/-- A conjunction filter and its relative complement partition the outer
filter. -/
theorem filter_and_split {α : Type} (a b : α → Bool) :
    ∀ (l : List α),
      (l.filter (fun x => a x && b x)).length + (l.filter (fun x => a x && !b x)).length
        = (l.filter a).length := by
  intro l
  induction l with
  | nil => simp
  | cons x xs ih =>
    cases hx : a x <;> cases hbx : b x <;> simp [List.filter, hx, hbx] <;> omega



/-- A present nonempty string is truthy. -/
theorem truthy_some_ne (s : String) (hs : s ≠ "") : truthy (Option.some s) = true := by
  cases he : s.isEmpty
  · simp [truthy, he]
  · exact absurd ((String.isEmpty_iff s).mp he) hs

/-- Appending an operation to its group increases a filtered size sum by
its filter value. -/
theorem addToGroup_filter_sum (p : Op → Bool) (key : String) (op : Op) :
    ∀ (groups : List (String × List Op)),
      ((addToGroup key op groups).map (fun g => (g.2.filter p).length)).sum
        = (groups.map (fun g => (g.2.filter p).length)).sum + (if p op then 1 else 0) := by
  intro groups
  induction groups with
  | nil => cases hp : p op <;> simp [addToGroup, List.filter, hp]
  | cons g rest ih =>
    by_cases hk : g.1 = key
    · cases hg : g
      simp only [addToGroup, hg] at hk ⊢
      rw [if_pos hk]
      cases hp : p op <;>
        (simp [List.filter_append, List.filter, hp]; try omega)
    · cases hg : g
      simp only [addToGroup, hg] at hk ⊢
      rw [if_neg hk]
      simp only [List.map, List.sum_cons]
      rw [ih]
      omega

/-- Filtered sizes of the file groups count the kept operations satisfying
the filter. -/
theorem group_by_file_filter_sum (extract : String → String) (p : Op → Bool) :
    ∀ (ops : List Op) (acc : List (String × List Op)),
      (((ops.foldl (fun groups op =>
          match op.file_id with
          | Option.none => groups
          | Option.some fid =>
            if fid = "" then groups else addToGroup (extract fid) op groups) acc).map
            (fun g => (g.2.filter p).length)).sum)
        = ((acc.map (fun g => (g.2.filter p).length)).sum)
          + (ops.filter (fun op => truthy op.file_id && p op)).length := by
  intro ops
  induction ops with
  | nil => intro acc; simp
  | cons op rest ih =>
    intro acc
    simp only [List.foldl]
    rcases hof : op.file_id with _ | fid
    · dsimp only
      rw [ih]
      simp [List.filter, truthy, hof]
    · dsimp only
      by_cases hfe : fid = ""
      · rw [if_pos hfe, ih]
        subst hfe
        simp [List.filter, truthy, hof, show ("" : String).isEmpty = true from rfl]
      · rw [if_neg hfe, ih, addToGroup_filter_sum]
        have ht : truthy op.file_id = true := by rw [hof]; exact truthy_some_ne fid hfe
        cases hp : p op <;> (simp [List.filter, ht, hp]; try omega)

/-- Label-truthy operations inside file groups plus label-dropped
operations account for all file-kept operations. -/
theorem group_by_file_sizes (extract : String → String) (ops : List Op) :
    ((group_by_file extract ops).map (fun g => (g.2.filter (fun op => truthy op.label_id)).length)).sum
        + (ops.filter badLabel).length
      = (ops.filter (fun op => truthy op.file_id)).length := by
  have h1 := group_by_file_filter_sum extract (fun op => truthy op.label_id) ops []
  have h2 := group_by_file_filter_sum extract (fun op => !truthy op.label_id) ops []
  unfold group_by_file badLabel
  rw [h1]
  have := filter_and_split (fun op : Op => truthy op.file_id) (fun op => truthy op.label_id) ops
  simp only [List.map_nil, List.sum_nil, Nat.zero_add] at *
  omega



/-- Appending an operation to a label bucket increases the size sum by
one. -/
theorem addLabelOp_size_sum (lid : String) (b : Bool) (op : Op) :
    ∀ (acc : List (String × LabelOps)),
      ((addLabelOp lid b op acc).map
          (fun p => p.2.applyOps.length + p.2.removeOps.length)).sum
        = (acc.map (fun p => p.2.applyOps.length + p.2.removeOps.length)).sum + 1 := by
  intro acc
  induction acc with
  | nil => cases b <;> simp [addLabelOp]
  | cons q rest ih =>
    by_cases hk : q.1 = lid
    · cases hq : q
      simp only [addLabelOp, hq] at hk ⊢
      rw [if_pos hk]
      cases b <;> simp <;> omega
    · cases hq : q
      simp only [addLabelOp, hq] at hk ⊢
      rw [if_neg hk]
      simp only [List.map, List.sum_cons]
      rw [ih]
      omega

/-- Bucket sizes count the label-kept operations. -/
theorem group_by_label_size_sum :
    ∀ (fops : List Op) (acc : List (String × LabelOps)),
      ((fops.foldl (fun acc op =>
          match op.label_id with
          | Option.none => acc
          | Option.some lid =>
            if lid = "" then acc
            else addLabelOp lid (op.operation == Option.some "remove") op acc) acc).map
          (fun p => p.2.applyOps.length + p.2.removeOps.length)).sum
        = (acc.map (fun p => p.2.applyOps.length + p.2.removeOps.length)).sum
          + (fops.filter (fun op => truthy op.label_id)).length := by
  intro fops
  induction fops with
  | nil => intro acc; simp
  | cons op rest ih =>
    intro acc
    simp only [List.foldl]
    rcases hol : op.label_id with _ | lid
    · dsimp only
      rw [ih]
      simp [List.filter, truthy, hol]
    · dsimp only
      by_cases hle : lid = ""
      · rw [if_pos hle, ih]
        subst hle
        simp [List.filter, truthy, hol, show ("" : String).isEmpty = true from rfl]
      · rw [if_neg hle, ih, addLabelOp_size_sum]
        have ht : truthy op.label_id = true := by rw [hol]; exact truthy_some_ne lid hle
        simp [List.filter, ht]
        omega

/-- Recorded plus dropped operations of one file account for its
label-kept operations. -/
theorem fileRec_add_dropped (getLabel : String → Except String (List LabelField))
    (fops : List Op) :
    fileRecorded getLabel fops + fileDropped getLabel fops
      = (fops.filter (fun op => truthy op.label_id)).length := by
  unfold fileRecorded fileDropped
  rw [← sum_map_add]
  have : ((group_by_label fops).map
      (fun p => bucketRecorded getLabel p.1 p.2 + bucketDropped getLabel p.1 p.2)).sum
      = ((group_by_label fops).map
        (fun p => p.2.applyOps.length + p.2.removeOps.length)).sum := by
    congr 1
    apply List.map_congr_left
    intro p _
    exact bucketRec_add_dropped getLabel p.1 p.2
  rw [this]
  have h2 := group_by_label_size_sum fops []
  unfold group_by_label
  simpa using h2



/-- Full accounting of one `batch_update_files` run: `total` is the input
length; one result record exists per counted operation; and counted
operations plus modification-less apply operations plus label-dropped plus
file-dropped operations account for every input operation. -/
theorem batch_accounting (extract : String → String)
    (getLabel : String → Except String (List LabelField))
    (svcFields : String → String → List FieldMod → Bool)
    (svcRemove : String → String → Bool) (ops : List Op) (bs : Nat) (hbs : 0 < bs) :
    (batch_update_files extract getLabel svcFields svcRemove ops bs).total = ops.length
  ∧ (batch_update_files extract getLabel svcFields svcRemove ops bs).successful
      + (batch_update_files extract getLabel svcFields svcRemove ops bs).failed
      + droppedApplyCount extract getLabel ops
      + (ops.filter badLabel).length + (ops.filter badFile).length
      = ops.length
  ∧ (batch_update_files extract getLabel svcFields svcRemove ops bs).records.length
      = (batch_update_files extract getLabel svcFields svcRemove ops bs).successful
        + (batch_update_files extract getLabel svcFields svcRemove ops bs).failed := by
  obtain ⟨r1, r2, r3⟩ := runChunks_counts getLabel svcFields svcRemove ops.length
    (group_by_file extract ops).length (chunks bs (group_by_file extract ops)) 0
    { total := ops.length, successful := 0, failed := 0, records := [], errors := 0,
      processed := 0, events := [] }
  have hflat : ((chunks bs (group_by_file extract ops)).map
      (fun c => (c.map (fun fg => fileRecorded getLabel fg.2)).sum)).sum
      = ((group_by_file extract ops).map (fun fg => fileRecorded getLabel fg.2)).sum := by
    rw [sum_map_sum_flatten, chunks_flatten bs hbs]
  have hdrop : droppedApplyCount extract getLabel ops
      = ((group_by_file extract ops).map (fun g => fileDropped getLabel g.2)).sum := rfl
  have hsum : ((group_by_file extract ops).map (fun fg => fileRecorded getLabel fg.2)).sum
      + ((group_by_file extract ops).map (fun g => fileDropped getLabel g.2)).sum
      = ((group_by_file extract ops).map
          (fun g => (g.2.filter (fun op => truthy op.label_id)).length)).sum := by
    rw [← sum_map_add]
    congr 1
    apply List.map_congr_left
    intro g _
    exact fileRec_add_dropped getLabel g.2
  have hfs := group_by_file_sizes extract ops
  have hsplit := filter_length_split (fun op : Op => truthy op.file_id) ops
  have hbad : (ops.filter badFile).length
      = (ops.filter (fun x => !truthy x.file_id)).length := rfl
  have hs : (batch_update_files extract getLabel svcFields svcRemove ops bs).successful
      = (runChunks getLabel svcFields svcRemove ops.length
          (group_by_file extract ops).length (chunks bs (group_by_file extract ops)) 0
          { total := ops.length, successful := 0, failed := 0, records := [], errors := 0,
            processed := 0, events := [] }).successful := rfl
  have hf : (batch_update_files extract getLabel svcFields svcRemove ops bs).failed
      = (runChunks getLabel svcFields svcRemove ops.length
          (group_by_file extract ops).length (chunks bs (group_by_file extract ops)) 0
          { total := ops.length, successful := 0, failed := 0, records := [], errors := 0,
            processed := 0, events := [] }).failed := rfl
  have ht : (batch_update_files extract getLabel svcFields svcRemove ops bs).total
      = (runChunks getLabel svcFields svcRemove ops.length
          (group_by_file extract ops).length (chunks bs (group_by_file extract ops)) 0
          { total := ops.length, successful := 0, failed := 0, records := [], errors := 0,
            processed := 0, events := [] }).total := rfl
  have hrec : (batch_update_files extract getLabel svcFields svcRemove ops bs).records.length
      = (runChunks getLabel svcFields svcRemove ops.length
          (group_by_file extract ops).length (chunks bs (group_by_file extract ops)) 0
          { total := ops.length, successful := 0, failed := 0, records := [], errors := 0,
            processed := 0, events := [] }).records.length := rfl
  have z1 : ({ total := ops.length, successful := 0, failed := 0, records := [],
               errors := 0, processed := 0, events := [] } : BState).successful = 0 := rfl
  have z2 : ({ total := ops.length, successful := 0, failed := 0, records := [],
               errors := 0, processed := 0, events := [] } : BState).failed = 0 := rfl
  have z3 : ({ total := ops.length, successful := 0, failed := 0, records := [],
               errors := 0, processed := 0, events := [] } : BState).records.length = 0 := rfl
  rw [z1, z2] at r1
  rw [z3] at r2
  simp only [Nat.zero_add] at r1 r2
  refine ⟨?_, ?_, ?_⟩
  · rw [ht, r3]
  · rw [hs, hf, r1, hflat, hdrop]
    omega
  · rw [hrec, hs, hf, r2, r1]



/-- Members of groups after an insertion are the inserted operation or
members of the previous groups. -/
theorem addToGroup_mem (key : String) (op : Op) :
    ∀ (groups : List (String × List Op)) (g : String × List Op),
      g ∈ addToGroup key op groups → ∀ o ∈ g.2, o = op ∨ ∃ g' ∈ groups, o ∈ g'.2 := by
  intro groups
  induction groups with
  | nil =>
    intro g hg o ho
    simp only [addToGroup, List.mem_singleton] at hg
    subst hg
    simp only [List.mem_singleton] at ho
    exact Or.inl ho
  | cons q rest ih =>
    obtain ⟨k, qops⟩ := q
    intro g hg o ho
    simp only [addToGroup] at hg
    by_cases hk : k = key
    · rw [if_pos hk] at hg
      rcases List.mem_cons.mp hg with hg | hg
      · subst hg
        simp only [List.mem_append, List.mem_singleton] at ho
        rcases ho with ho | ho
        · exact Or.inr ⟨(k, qops), List.mem_cons_self _ _, ho⟩
        · exact Or.inl ho
      · exact Or.inr ⟨g, List.mem_cons_of_mem _ hg, ho⟩
    · rw [if_neg hk] at hg
      rcases List.mem_cons.mp hg with hg | hg
      · subst hg
        exact Or.inr ⟨(k, qops), List.mem_cons_self _ _, ho⟩
      · rcases ih g hg o ho with h | ⟨g', hg', ho'⟩
        · exact Or.inl h
        · exact Or.inr ⟨g', List.mem_cons_of_mem _ hg', ho'⟩

/-- Every operation inside a file group has a truthy file id. -/
theorem group_by_file_good (extract : String → String) :
    ∀ (ops : List Op) (acc : List (String × List Op)),
      (∀ g ∈ acc, ∀ o ∈ g.2, truthy o.file_id = true) →
      ∀ g ∈ ops.foldl (fun groups op =>
          match op.file_id with
          | Option.none => groups
          | Option.some fid =>
            if fid = "" then groups else addToGroup (extract fid) op groups) acc,
        ∀ o ∈ g.2, truthy o.file_id = true := by
  intro ops
  induction ops with
  | nil => intro acc hacc; exact hacc
  | cons op rest ih =>
    intro acc hacc
    simp only [List.foldl]
    rcases hof : op.file_id with _ | fid <;> dsimp only
    · exact ih acc hacc
    · by_cases hfe : fid = ""
      · rw [if_pos hfe]
        exact ih acc hacc
      · rw [if_neg hfe]
        apply ih
        intro g hg o ho
        rcases addToGroup_mem (extract fid) op acc g hg o ho with h | ⟨g', hg', ho'⟩
        · subst h
          rw [hof]
          exact truthy_some_ne fid hfe
        · exact hacc g' hg' o ho'

/-- Members of label buckets after an insertion are the inserted operation
or previous members. -/
theorem addLabelOp_mem (lid : String) (b : Bool) (op : Op) :
    ∀ (acc : List (String × LabelOps)) (p : String × LabelOps),
      p ∈ addLabelOp lid b op acc →
      ∀ o, (o ∈ p.2.applyOps ∨ o ∈ p.2.removeOps) →
        o = op ∨ ∃ p' ∈ acc, o ∈ p'.2.applyOps ∨ o ∈ p'.2.removeOps := by
  intro acc
  induction acc with
  | nil =>
    intro p hp o ho
    simp only [addLabelOp, List.mem_singleton] at hp
    subst hp
    cases b <;> simp at ho <;> exact Or.inl ho
  | cons q rest ih =>
    obtain ⟨k, lo⟩ := q
    intro p hp o ho
    simp only [addLabelOp] at hp
    by_cases hk : k = lid
    · rw [if_pos hk] at hp
      rcases List.mem_cons.mp hp with hp | hp
      · subst hp
        cases b
        · dsimp only at ho
          rcases ho with ho | ho
          · rcases List.mem_append.mp ho with ho | ho
            · exact Or.inr ⟨(k, lo), List.mem_cons_self _ _, Or.inl ho⟩
            · exact Or.inl (List.mem_singleton.mp ho)
          · exact Or.inr ⟨(k, lo), List.mem_cons_self _ _, Or.inr ho⟩
        · dsimp only at ho
          rcases ho with ho | ho
          · exact Or.inr ⟨(k, lo), List.mem_cons_self _ _, Or.inl ho⟩
          · rcases List.mem_append.mp ho with ho | ho
            · exact Or.inr ⟨(k, lo), List.mem_cons_self _ _, Or.inr ho⟩
            · exact Or.inl (List.mem_singleton.mp ho)
      · exact Or.inr ⟨p, List.mem_cons_of_mem _ hp, ho⟩
    · rw [if_neg hk] at hp
      rcases List.mem_cons.mp hp with hp | hp
      · subst hp
        exact Or.inr ⟨(k, lo), List.mem_cons_self _ _, ho⟩
      · rcases ih p hp o ho with h | ⟨p', hp', ho'⟩
        · exact Or.inl h
        · exact Or.inr ⟨p', List.mem_cons_of_mem _ hp', ho'⟩

/-- Every operation inside a label bucket has a truthy label id. -/
theorem group_by_label_good :
    ∀ (fops : List Op) (acc : List (String × LabelOps)),
      (∀ p ∈ acc, ∀ o, (o ∈ p.2.applyOps ∨ o ∈ p.2.removeOps) → truthy o.label_id = true) →
      ∀ p ∈ fops.foldl (fun acc op =>
          match op.label_id with
          | Option.none => acc
          | Option.some lid =>
            if lid = "" then acc
            else addLabelOp lid (op.operation == Option.some "remove") op acc) acc,
        ∀ o, (o ∈ p.2.applyOps ∨ o ∈ p.2.removeOps) → truthy o.label_id = true := by
  intro fops
  induction fops with
  | nil => intro acc hacc; exact hacc
  | cons op rest ih =>
    intro acc hacc
    simp only [List.foldl]
    rcases hol : op.label_id with _ | lid <;> dsimp only
    · exact ih acc hacc
    · by_cases hle : lid = ""
      · rw [if_pos hle]
        exact ih acc hacc
      · rw [if_neg hle]
        apply ih
        intro p hp o ho
        rcases addLabelOp_mem lid (op.operation == Option.some "remove") op acc p hp o ho with
          h | ⟨p', hp', ho'⟩
        · subst h
          rw [hol]
          exact truthy_some_ne lid hle
        · exact hacc p' hp' o ho'



/-- C10 (amended): an operation missing its file id or label id appears in
no group (so it generates no remote call, no result record, and no failure
count), and the aggregate total always equals the input length; but because
apply-like operations in groups yielding no field modifications are also
unrecorded, `total - (successful + failed)` equals the number of dropped
malformed operations PLUS the number of such modification-less apply
operations (`batch_update_files` has no skipped counter at all). -/
theorem C10_malformed_amended :
    (∀ (extract : String → String) (ops : List Op) (g : String × List Op),
        g ∈ group_by_file extract ops → ∀ op ∈ g.2, truthy op.file_id = true)
  ∧ (∀ (fops : List Op) (p : String × LabelOps), p ∈ group_by_label fops →
        ∀ op, (op ∈ p.2.applyOps ∨ op ∈ p.2.removeOps) → truthy op.label_id = true)
  ∧ (∀ (extract : String → String) (getLabel : String → Except String (List LabelField))
        (svcFields : String → String → List FieldMod → Bool)
        (svcRemove : String → String → Bool) (ops : List Op) (bs : Nat), 0 < bs →
        (batch_update_files extract getLabel svcFields svcRemove ops bs).total = ops.length
      ∧ (batch_update_files extract getLabel svcFields svcRemove ops bs).records.length
          = (batch_update_files extract getLabel svcFields svcRemove ops bs).successful
            + (batch_update_files extract getLabel svcFields svcRemove ops bs).failed
      ∧ (batch_update_files extract getLabel svcFields svcRemove ops bs).successful
          + (batch_update_files extract getLabel svcFields svcRemove ops bs).failed
          + droppedApplyCount extract getLabel ops
          + (ops.filter badLabel).length + (ops.filter badFile).length
          = ops.length) := by
  refine ⟨?_, ?_, ?_⟩
  · intro extract ops g hg
    exact group_by_file_good extract ops [] (by intro g' hg'; simp at hg') g hg
  · intro fops p hp
    exact group_by_label_good fops [] (by intro p' hp'; simp at hp') p hp
  · intro extract getLabel svcFields svcRemove ops bs hbs
    obtain ⟨a1, a2, a3⟩ := batch_accounting extract getLabel svcFields svcRemove ops bs hbs
    exact ⟨a1, a3, a2⟩

/-- C10 counterexample: with one malformed operation (missing file id) and
one well-formed apply operation whose value is None, the run records
nothing, so `total - (successful + failed + 0)` is 2 while the number of
dropped malformed operations is 1 — the claimed reconciliation equation
fails. -/
theorem C10_counterexample :
    ((batch_update_files id (fun _ => Except.error "e") (fun _ _ _ => true) (fun _ _ => true)
        [⟨Option.some "apply", Option.none, Option.some "L1", Option.some "f1",
          Option.some (.str "x")⟩,
         ⟨Option.some "apply", Option.some "F1", Option.some "L1", Option.some "f1",
          Option.none⟩] 10).total = 2
    ∧ (batch_update_files id (fun _ => Except.error "e") (fun _ _ _ => true) (fun _ _ => true)
        [⟨Option.some "apply", Option.none, Option.some "L1", Option.some "f1",
          Option.some (.str "x")⟩,
         ⟨Option.some "apply", Option.some "F1", Option.some "L1", Option.some "f1",
          Option.none⟩] 10).successful = 0
    ∧ (batch_update_files id (fun _ => Except.error "e") (fun _ _ _ => true) (fun _ _ => true)
        [⟨Option.some "apply", Option.none, Option.some "L1", Option.some "f1",
          Option.some (.str "x")⟩,
         ⟨Option.some "apply", Option.some "F1", Option.some "L1", Option.some "f1",
          Option.none⟩] 10).failed = 0
    ∧ ([(⟨Option.some "apply", Option.none, Option.some "L1", Option.some "f1",
          Option.some (.str "x")⟩ : Op),
        ⟨Option.some "apply", Option.some "F1", Option.some "L1", Option.some "f1",
          Option.none⟩].filter badFile).length = 1)
  ∧ ¬ ((batch_update_files id (fun _ => Except.error "e") (fun _ _ _ => true) (fun _ _ => true)
        [⟨Option.some "apply", Option.none, Option.some "L1", Option.some "f1",
          Option.some (.str "x")⟩,
         ⟨Option.some "apply", Option.some "F1", Option.some "L1", Option.some "f1",
          Option.none⟩] 10).total
      - ((batch_update_files id (fun _ => Except.error "e") (fun _ _ _ => true)
            (fun _ _ => true)
          [⟨Option.some "apply", Option.none, Option.some "L1", Option.some "f1",
            Option.some (.str "x")⟩,
           ⟨Option.some "apply", Option.some "F1", Option.some "L1", Option.some "f1",
            Option.none⟩] 10).successful
        + (batch_update_files id (fun _ => Except.error "e") (fun _ _ _ => true)
            (fun _ _ => true)
          [⟨Option.some "apply", Option.none, Option.some "L1", Option.some "f1",
            Option.some (.str "x")⟩,
           ⟨Option.some "apply", Option.some "F1", Option.some "L1", Option.some "f1",
            Option.none⟩] 10).failed + 0)
      = ([(⟨Option.some "apply", Option.none, Option.some "L1", Option.some "f1",
            Option.some (.str "x")⟩ : Op),
          ⟨Option.some "apply", Option.some "F1", Option.some "L1", Option.some "f1",
            Option.none⟩].filter badFile).length) := by
  refine ⟨⟨?_, ?_, ?_, ?_⟩, ?_⟩ <;> decide

/-- Witness for C10 (amended) at the counterexample input. -/
theorem C10_witness :
    0 < 10
  ∧ (batch_update_files id (fun _ => Except.error "e") (fun _ _ _ => true) (fun _ _ => true)
      [⟨Option.some "apply", Option.none, Option.some "L1", Option.some "f1",
        Option.some (.str "x")⟩,
       ⟨Option.some "apply", Option.some "F1", Option.some "L1", Option.some "f1",
        Option.none⟩] 10).total = 2 :=
  ⟨by decide,
   (C10_malformed_amended.2.2 id (fun _ => Except.error "e") (fun _ _ _ => true)
      (fun _ _ => true)
      [⟨Option.some "apply", Option.none, Option.some "L1", Option.some "f1",
        Option.some (.str "x")⟩,
       ⟨Option.some "apply", Option.some "F1", Option.some "L1", Option.some "f1",
        Option.none⟩] 10 (by decide)).1⟩

end Ldlm
